import Mathlib

/-!
Verification development for the osgEarth elevation core
(`src/osgEarth/ElevationLayer.cpp`).

The C++ code is shallowly embedded as executable Lean definitions:

* elevation samples are modelled as `Int` (the C++ code uses `float`; every
  claim under study is about control flow — which sample wins, what is summed,
  what is cached — not about floating-point rounding, so an exact integer
  sample domain is a faithful carrier for them);
* world coordinates and resolutions are modelled as `ℚ` (exact);
* reference-counted pointers that may be null become `Option`;
* external collaborators that live outside `ElevationLayer.cpp`
  (tile source backends, cache bins, `TileKey::mapResolution`,
  `TileLayer::getBestAvailableTileKey`, `GeoHeightField::getElevation`,
  `HeightFieldUtils::resolveInvalidHeights`, the progress token) are
  parameters of the model: they appear as function-valued fields of
  environment records, exactly at the call boundary the C++ code uses them.
-/

namespace OE

/-- Elevation sample domain (models C++ `float` samples exactly at the
control-flow level; see the file header). -/
abbrev Elev := Int

/-- Models osgEarth's `NO_DATA_VALUE` sentinel (`-FLT_MAX` in the source):
a reserved sample value meaning "no sample here". -/
def NO_DATA_VALUE : Elev := -999999

/-- Tile address: level of detail and grid column/row.  The tiling-scheme
(profile) component of the C++ `TileKey` is carried by the environments
instead, since all profile-dependent operations are external collaborators. -/
structure TileKey where
  lod : Nat
  x : Nat
  y : Nat
deriving DecidableEq, Repr

/-- Modelled from the spec: `TileKey` "supports deriving a parent key
(coarser LOD, same area)"; the C++ `TileKey::createParentKey` (outside this
translation unit) yields an invalid key at LOD 0, modelled as `none`. -/
def TileKey.createParentKey (k : TileKey) : Option TileKey :=
  if k.lod = 0 then none else some ⟨k.lod - 1, k.x / 2, k.y / 2⟩

/-! ## Single-source resolver (`ElevationLayer::createHeightFieldInKeyProfile`) -/

/-- A heightfield as stored/cached: dimensions plus a row-major sample list
(mirrors `osg::HeightField` with its `FloatArray`). -/
structure HField where
  numColumns : Nat
  numRows : Nat
  heights : List Elev
deriving DecidableEq, Repr

/-- Mirrors the anonymous-namespace `validateHeightField` of the source:
rows in [2,1024], columns in [2,1024], sample count equal to `cols*rows`;
checks performed in the source's order. -/
def validateHeightField (hf : HField) : Bool :=
  if hf.numRows < 2 || hf.numRows > 1024 then false
  else if hf.numColumns < 2 || hf.numColumns > 1024 then false
  else if hf.heights.length != hf.numColumns * hf.numRows then false
  else true

/-- The slice of `CachePolicy` the resolver consults (`isCacheOnly`,
`isCacheReadable`, `isCacheWriteable`).  Expiration (`isExpired` applied to
the persistent entry's timestamp) is delivered with the persistent read
result, see `ResolverEnv.persistentRead`. -/
structure CachePolicy where
  cacheOnly : Bool
  readable : Bool
  writable : Bool
deriving DecidableEq, Repr

/-- External collaborators and layer state consulted by one
`createHeightFieldInKeyProfile(key, progress)` call, fixed for that call.

`persistentRead` models `cacheBin->readObject(cacheKey)` together with
`policy.isExpired(lastModifiedTime)`: `some (payload, expired)` on a read
hit.  `createImpl` models `createHeightFieldImplementation(key, progress)`,
`assembleResult` models `assembleHeightField(key, ...)`; the branch between
them is `profilesHorizEquivalent` (`key.getProfile()->isHorizEquivalentTo`).
`memStore` is the L2 memory cache keyed by the string built in
`memCacheKey`. -/
structure ResolverEnv where
  revision : Nat
  keyStr : String
  horizSig : String
  memCacheEnabled : Bool
  memStore : String → Option HField
  cacheBin : Bool
  persistentRead : Option (HField × Bool)
  profileValid : Bool
  keyInLegalRange : Bool
  profilesHorizEquivalent : Bool
  createImpl : Option HField
  assembleResult : Option HField
  vertEquivalent : Bool
  vdatumXform : HField → HField
  noDataValue : Elev
  minValidValue : Elev
  maxValidValue : Elev

/-- Mirrors `sprintf(memCacheKey, "%d/%s/%s", getRevision(), key.str(),
key.getProfile()->getHorizSignature())`. -/
def memCacheKey (rev : Nat) (keyStr sig : String) : String :=
  toString rev ++ "/" ++ keyStr ++ "/" ++ sig

/-- Mirrors `ElevationLayer::normalizeNoDataValues`: every sample that equals
the layer's no-data value or lies outside the valid range is rewritten to the
`NO_DATA_VALUE` sentinel (the `isNaN` disjunct of the source has no
counterpart in the exact sample domain). -/
def normalizeNoDataValues (env : ResolverEnv) (hf : HField) : HField :=
  { hf with heights := hf.heights.map fun v =>
      if v = env.noDataValue ∨ v < env.minValidValue ∨ v > env.maxValidValue
      then NO_DATA_VALUE else v }

/-- The post-production pipeline applied to a freshly produced heightfield:
vertical-datum transform when the vertical SRSs differ, then no-data
normalization (source lines: the `VerticalDatum::transform` block followed by
the `normalizeNoDataValues` block). -/
def postProcess (env : ResolverEnv) (hf : HField) : HField :=
  normalizeNoDataValues env (if env.vertEquivalent then hf else env.vdatumXform hf)

/-- Observable outcome of one resolver call: the returned heightfield
(`none` = `GeoHeightField::INVALID`), what was written to each cache tier,
and which phases ran. -/
structure ResolveOutcome where
  result : Option HField
  wrotePersistent : Option HField
  wroteMem : Option (String × HField)
  readPersistentTier : Bool
  attemptedFresh : Bool
  fromMemCache : Bool
  fromCache : Bool
deriving DecidableEq, Repr

/-- Shallow embedding of `ElevationLayer::createHeightFieldInKeyProfile`.

`polls` is the sequence of values observed from
`progress && progress->isCanceled()`: the n-th poll executed by this call
reads `polls n`.  The call performs at most two polls: the check placed just
before the persistent-tier write path (source: "Check for cancelation before
writing to a cache", inside the fresh-production block) and the check just
before the memory-cache write (source line before `bin->write`).  On the
fresh-production path those are polls 0 and 1; on the cache-hit paths only
the pre-memory-write check runs and is poll 0. -/
def createHeightFieldInKeyProfile (env : ResolverEnv) (policy : CachePolicy)
    (polls : Nat → Bool) : ResolveOutcome :=
  let mkey := memCacheKey env.revision env.keyStr env.horizSig
  match (if env.memCacheEnabled then env.memStore mkey else none) with
  | some mh =>
    -- L2 memory cache hit: `fromMemCache = true`, main-cache block skipped.
    if polls 0 then ⟨none, none, none, false, false, true, false⟩
    else ⟨some mh, none, none, false, false, true, false⟩
  | none =>
    -- "validate the existance of a valid layer profile"
    if !policy.cacheOnly && !env.profileValid then
      ⟨none, none, none, false, false, false, false⟩
    else
      let readP := env.cacheBin && policy.readable
      let pr := if readP then env.persistentRead else none
      -- `cachedHF` is retained from any successful read (the expired-fallback
      -- candidate); it becomes the served value `hf` only when it validates
      -- and is not expired.
      let cachedHF : Option HField := pr.map Prod.fst
      let hfA : Option HField :=
        match pr with
        | some (chf, expired) =>
          if validateHeightField chf ∧ ¬expired then some chf else none
        | none => none
      if hfA.isNone ∧ policy.cacheOnly then
        ⟨none, none, none, readP, false, false, false⟩
      else
        match hfA with
        | some ch =>
          -- served from still-valid persistent cache (`fromCache = true`);
          -- the fresh-production block is skipped, then the pre-memory-write
          -- cancellation check runs (poll 0).
          if polls 0 then ⟨none, none, none, readP, false, false, true⟩
          else ⟨some ch, none,
                if env.memCacheEnabled then some (mkey, ch) else none,
                readP, false, false, true⟩
        | none =>
          if !env.keyInLegalRange then ⟨none, none, none, readP, false, false, false⟩
          else
            let produced : Option HField :=
              if env.profilesHorizEquivalent then env.createImpl else env.assembleResult
            -- "Check for cancelation before writing to a cache" (poll 0)
            if polls 0 then ⟨none, none, none, readP, true, false, false⟩
            else
              let hfV : Option HField :=
                match produced with
                | some f => if validateHeightField f then some f else none
                | none => none
              let hfP : Option HField := hfV.map (postProcess env)
              -- persistent write: fresh, validated, bin present, writable
              -- (the `!fromCache` conjunct of the source holds trivially on
              -- this branch).
              let wroteP : Option HField :=
                if hfP.isSome ∧ env.cacheBin ∧ policy.writable then hfP else none
              -- expired/retained cached data is the fallback when no fresh
              -- heightfield survived.
              let hfF : Option HField :=
                match hfP with
                | some f => some f
                | none => cachedHF
              match hfF with
              | none => ⟨none, wroteP, none, readP, true, false, false⟩
              | some h =>
                -- pre-memory-write cancellation check (poll 1 on this path)
                if polls 1 then ⟨none, wroteP, none, readP, true, false, false⟩
                else ⟨some h, wroteP,
                      if env.memCacheEnabled then some (mkey, h) else none,
                      readP, true, false, false⟩

/-! ## The commented-out per-key sentry (`ElevationLayer::createHeightField`)

The source contains only
`// prevents 2 threads from creating the same object at the same time`
`//_sentry.lock(key);` — the guard is not implemented.  The following small
interleaving model captures the two phases each unsynchronized call performs
against the shared cache entry for one key: a cache lookup, then (on a miss)
a source fetch followed by a write-through. -/

/-- Shared state of two overlapping `createHeightField` calls for one
(source, key) pair: the cache entry, each call's program counter, what each
call's lookup observed, and the number of underlying source fetches so far. -/
structure SentrylessState where
  cache : Option HField
  pc1 : Nat
  pc2 : Nat
  saw1 : Option (Option HField)
  saw2 : Option (Option HField)
  fetches : Nat
deriving DecidableEq, Repr

/-- Advance one call (`who = false` is call 1) by one atomic phase:
phase 0 reads the cache; phase 1 fetches from the source and writes through,
but only if the phase-0 lookup missed. -/
def sentrylessStep (impl : HField) (s : SentrylessState) (who : Bool) :
    SentrylessState :=
  if who = false then
    match s.pc1 with
    | 0 => { s with saw1 := some s.cache, pc1 := 1 }
    | 1 =>
      match s.saw1 with
      | some (some _) => { s with pc1 := 2 }
      | _ => { s with cache := some impl, fetches := s.fetches + 1, pc1 := 2 }
    | _ => s
  else
    match s.pc2 with
    | 0 => { s with saw2 := some s.cache, pc2 := 1 }
    | 1 =>
      match s.saw2 with
      | some (some _) => { s with pc2 := 2 }
      | _ => { s with cache := some impl, fetches := s.fetches + 1, pc2 := 2 }
    | _ => s

/-- Run a schedule (interleaving) of the two calls from a cold cache. -/
def sentrylessRun (impl : HField) (sched : List Bool) : SentrylessState :=
  sched.foldl (sentrylessStep impl) ⟨none, 0, 0, none, none, 0⟩

/-! ## Cross-projection assembler (`ElevationLayer::assembleHeightField`) -/

/-- Exact 3-vector for surface normals. -/
abbrev Vec3Q := ℚ × ℚ × ℚ

/-- `a - b` componentwise (osg `Vec3` subtraction). -/
def vsub (a b : Vec3Q) : Vec3Q := (a.1 - b.1, a.2.1 - b.2.1, a.2.2 - b.2.2)

/-- `a + b` componentwise (osg `Vec3` addition). -/
def vadd (a b : Vec3Q) : Vec3Q := (a.1 + b.1, a.2.1 + b.2.1, a.2.2 + b.2.2)

/-- Scalar multiple `q * a` (osg `Vec3 * double`). -/
def vsmul (q : ℚ) (a : Vec3Q) : Vec3Q := (q * a.1, q * a.2.1, q * a.2.2)

/-- Cross product `a ^ b` (osg `Vec3::operator^`). -/
def vcross (a b : Vec3Q) : Vec3Q :=
  (a.2.1 * b.2.2 - a.2.2 * b.2.1,
   a.2.2 * b.1 - a.1 * b.2.2,
   a.1 * b.2.1 - a.2.1 * b.1)

/-- A projected bounding box (`GeoExtent` bounds, exact). -/
structure Extent where
  xmin : ℚ
  ymin : ℚ
  xmax : ℚ
  ymax : ℚ

/-- World x-coordinate of output column `c` of a grid with `numColumns`
columns over `ext`: `xmin + (extent.width / (numColumns-1)) * c` (the sample
placement used identically by the assembler and the compositor). -/
def pixelX (ext : Extent) (numColumns : Nat) (c : Nat) : ℚ :=
  ext.xmin + ((ext.xmax - ext.xmin) / ((numColumns : ℚ) - 1)) * (c : ℚ)

/-- World y-coordinate of output row `r`. -/
def pixelY (ext : Extent) (numRows : Nat) (r : Nat) : ℚ :=
  ext.ymin + ((ext.ymax - ext.ymin) / ((numRows : ℚ) - 1)) * (r : ℚ)

/-- One fetched native tile as the assembler consumes it: grid dimensions,
its resolution (the sort key of `GeoHeightField::SortByResolutionFunctor`;
smaller = finer), and `getElevationAndNormal` as an external sampling
function over world coordinates (`none` = the query reported no data). -/
structure AGeo where
  cols : Nat
  rows : Nat
  res : ℚ
  sampleEN : ℚ → ℚ → Option (Elev × Vec3Q)

/-- The tiles the assembler actually works with: for each intersecting key in
legal range, the result of `createHeightFieldImplementation`, keeping only
valid ones (source: the collection loop over `intersectingTiles`). -/
def fetchedTiles (legal : TileKey → Bool) (create : TileKey → Option AGeo)
    (tiles : List TileKey) : List AGeo :=
  tiles.filterMap fun k => if legal k then create k else none

/-- Output width: mirrors the source's running maximum over
`getNumColumns()` starting at 0. -/
def maxCols (hfs : List AGeo) : Nat :=
  hfs.foldl (fun w g => if w < g.cols then g.cols else w) 0

/-- Output height: running maximum over `getNumRows()` starting at 0. -/
def maxRows (hfs : List AGeo) : Nat :=
  hfs.foldl (fun h g => if h < g.rows then g.rows else h) 0

/-- `std::sort` with `GeoHeightField::SortByResolutionFunctor` — modelled
from the spec: "sort fetched tiles by resolution, finest first" (the functor
itself lives outside this translation unit); finest = smallest `res`. -/
def sortTiles (hfs : List AGeo) : List AGeo :=
  hfs.mergeSort fun a b => decide (a.res ≤ b.res)

/-- One output pixel of the assembler: its world coordinate from the
requested extent, then the first tile (finest-resolution first) whose query
yields data wins; otherwise the no-data sentinel with the up-facing
placeholder normal `(0,0,1)`. -/
def assemblePixel (hfs : List AGeo) (ext : Extent) (width height : Nat)
    (c r : Nat) : Elev × Vec3Q :=
  match (sortTiles hfs).findSome?
      (fun g => g.sampleEN (pixelX ext width c) (pixelY ext height r)) with
  | some en => en
  | none => (NO_DATA_VALUE, (0, 0, 1))

/-- Shallow embedding of `ElevationLayer::assembleHeightField` from the point
where the intersecting keys are known: fetch, mosaic, and the final
cancellation check that nulls the outputs.  `none` models null `out_hf`. -/
def assembleHeightField (legal : TileKey → Bool) (create : TileKey → Option AGeo)
    (intersectingTiles : List TileKey) (ext : Extent) (canceled : Bool) :
    Option ((Nat × Nat) × (Nat → Nat → Elev × Vec3Q)) :=
  let hfs := fetchedTiles legal create intersectingTiles
  if hfs.isEmpty then none
  else if canceled then none
  else some ((maxCols hfs, maxRows hfs),
             assemblePixel hfs ext (maxCols hfs) (maxRows hfs))

/-! ## Multi-source compositor
(`ElevationLayerVector::populateHeightFieldAndNormalMap`) -/

/-- A heightfield grid in its accessor view (`getNumColumns`, `getNumRows`,
`getHeight(c,r)`), which is how the compositor reads and writes it. -/
structure HF where
  numColumns : Nat
  numRows : Nat
  data : Nat → Nat → Elev

/-- A `GeoHeightField` as the compositor consumes it: the raw native grid
(used by the fast path's `memcpy`) and `getElevation` as an external sampling
function over world coordinates, returning `some e` when the query succeeds
(`e` may still be the no-data sentinel, which the query reports). -/
structure GeoHF where
  hf : HF
  sample : ℚ → ℚ → Option Elev

/-- One elevation layer as the compositor consults it.  `createHF` models
`ElevationLayer::createHeightField` (the resolver, modelled independently
above) as the deterministic per-key fetch it is within one composite call;
`bestAvailableTileKey` and `isKeyInLegalRange` are `TileLayer` methods
external to this translation unit. -/
structure ELayer where
  enabled : Bool
  visible : Bool
  offsetLayer : Bool
  minLevel : Nat
  tileSize : Nat
  bestAvailableTileKey : TileKey → Option TileKey
  isKeyInLegalRange : TileKey → Bool
  createHF : TileKey → Option GeoHF

/-- Mirrors the source's `LayerData`: the layer, the key it will be queried
with (the "best available" key), and its position (priority index) in the
layer vector — higher index = higher priority. -/
structure LayerData where
  layer : ELayer
  key : TileKey
  index : Nat

/-- External context of one composite call.  `mapResolution` — modelled from
the spec: `TileKey` supports "mapping to an equivalent LOD under a different
sampling resolution" (`TileKey::mapResolution(numColumns, tileSize)` is
outside this translation unit).  `fill` — modelled from the spec: the final
`HeightFieldUtils::resolveInvalidHeights` pass fills "remaining no-data
holes ... by a local hole-fill pass (nearest valid neighbor or
equivalent)"; the fill value chosen for a hole is abstract. -/
structure CompositorEnv where
  mapResolution : TileKey → Nat → Nat → TileKey
  fill : Nat → Nat → Elev

/-- Qualification of one layer at vector position `i` (one iteration of the
source's reverse scan): skipped unless enabled and visible; the
resolution-mapped key is computed; the layer is excluded when the requested
LOD is below its `minLevel` or when no best-available key exists; otherwise
it is kept with its best-available key, flagged (`Bool`) as a
fallback-supplying layer when that key differs from the mapped key. -/
def considerLayer (mapRes : TileKey → Nat → Nat → TileKey) (key : TileKey)
    (numColumns : Nat) (i : Nat) (layer : ELayer) :
    Option (LayerData × Bool) :=
  if layer.enabled && layer.visible then
    let mappedKey := mapRes key numColumns layer.tileSize
    if key.lod < layer.minLevel then none
    else
      match layer.bestAvailableTileKey mappedKey with
      | some bestKey => some (⟨layer, bestKey, i⟩, decide (bestKey ≠ mappedKey))
      | none => none
  else none

/-- The source's qualification loop runs `i = size()-1 ... 0` ("Check them in
reverse order since the highest priority is last") pushing onto `contenders`
/ `offsets` and tallying `numFallbackLayers`.  `collectAux` consumes the
index-annotated layer list in ascending order but appends the current layer
after the recursive result, reproducing exactly the highest-priority-first
order of both output lists. -/
def collectAux (mapRes : TileKey → Nat → Nat → TileKey) (key : TileKey)
    (numColumns : Nat) :
    List (Nat × ELayer) → List LayerData × List LayerData × Nat
  | [] => ([], [], 0)
  | (i, layer) :: rest =>
    let acc := collectAux mapRes key numColumns rest
    match considerLayer mapRes key numColumns i layer with
    | none => acc
    | some (ld, fb) =>
      if ld.layer.offsetLayer then
        (acc.1, acc.2.1 ++ [ld], acc.2.2 + (if fb then 1 else 0))
      else
        (acc.1 ++ [ld], acc.2.1, acc.2.2 + (if fb then 1 else 0))

/-- Contenders, offsets and the fallback tally for one composite call. -/
def collectLayers (env : CompositorEnv) (key : TileKey) (numColumns : Nat)
    (layers : List ELayer) : List LayerData × List LayerData × Nat :=
  collectAux env.mapResolution key numColumns layers.enum

/-- Recomputes the fallback flag of a qualified layer from its stored data:
the layer supplies fallback data iff its best-available key differs from its
resolution-mapped key. -/
def isFallbackLD (env : CompositorEnv) (key : TileKey) (numColumns : Nat)
    (ld : LayerData) : Bool :=
  decide (ld.key ≠ env.mapResolution key numColumns ld.layer.tileSize)

/-- The contender fetch loop of the general path: starting from the
contender's key, while the key is valid and in the layer's legal range, try
`createHeightField`; on failure step to the parent key.  Returns the
heightfield together with the key that actually produced it. -/
def fetchWalk (layer : ELayer) (k : TileKey) : Option (GeoHF × TileKey) :=
  if layer.isKeyInLegalRange k then
    match layer.createHF k with
    | some g => some (g, k)
    | none =>
      match h : k.createParentKey with
      | some p => fetchWalk layer p
      | none => none
  else none
termination_by k.lod
decreasing_by
  simp only [TileKey.createParentKey] at h
  split at h
  · exact absurd h (by simp)
  · rename_i hl
    cases h
    simp only
    omega

/-- Does this contender resolve the pixel at world coordinate `(x,y)` — i.e.
its (possibly parent-fallback) heightfield exists and its sample there is a
successful query with a non-sentinel value? -/
def resolvesAt (x y : ℚ) (ld : LayerData) : Bool :=
  match fetchWalk ld.layer ld.key with
  | some (g, _) =>
    match g.sample x y with
    | some e => decide (e ≠ NO_DATA_VALUE)
    | none => false
  | none => false

/-- Is this contender's heightfield available without parent fallback
(`heightFallback[i] = false` at the moment the source marks `realData`)? -/
def availableNonFallback (ld : LayerData) : Bool :=
  match fetchWalk ld.layer ld.key with
  | some (_, fk) => decide (fk = ld.key)
  | none => false

/-- The per-pixel contender scan (the loop
`for (i = 0; i < contenders.size() && resolvedIndex < 0; ++i)`), contenders
ordered highest priority first.  First component: `some (resolvedIndex,
elevation, key.lod - actualKey.lod)` for the first contender whose available
heightfield yields a successful non-sentinel sample, else `none`.  Second
component: whether `realData` was marked during the scan — the source sets
it whenever an examined contender's heightfield is available and is not
fallback data, before and regardless of the sample outcome. -/
def scanContenders (keyLod : Nat) (x y : ℚ) :
    List LayerData → Option (Int × Elev × Int) × Bool
  | [] => (none, false)
  | ld :: rest =>
    match fetchWalk ld.layer ld.key with
    | none => scanContenders keyLod x y rest
    | some (g, fk) =>
      match g.sample x y with
      | some e =>
        if e ≠ NO_DATA_VALUE then
          (some ((ld.index : Int), e, (keyLod : Int) - (fk.lod : Int)),
           decide (fk = ld.key))
        else
          ((scanContenders keyLod x y rest).1,
           decide (fk = ld.key) || (scanContenders keyLod x y rest).2)
      | none =>
        ((scanContenders keyLod x y rest).1,
         decide (fk = ld.key) || (scanContenders keyLod x y rest).2)

/-- The `resolvedIndex` the offset pass sees at a pixel: the winning
contender's priority index, or `-1` when no contender resolved the pixel. -/
def resolvedIndexAt (keyLod : Nat) (x y : ℚ) (contenders : List LayerData) : Int :=
  match (scanContenders keyLod x y contenders).1 with
  | some (idx, _, _) => idx
  | none => -1

/-- The per-pixel offset pass (the loop
`for (i = offsets.size()-1; i >= 0; --i)` — `offsets` is ordered highest
priority first, so the loop applies offsets lowest priority first).  The
structural recursion processes the tail (the lower-priority offsets) first
and the head last, exactly like the downward loop.  Result: (sum added to
the pixel, the last-written `deltaLOD` record if any offset contributed,
whether `realData` was marked — the source sets it whenever a non-suppressed
offset's heightfield is available, regardless of fallback status and of the
sample outcome). -/
def applyOffsets (keyLod : Nat) (x y : ℚ) (ri : Int) :
    List LayerData → Int × Option Int × Bool
  | [] => (0, none, false)
  | ld :: rest =>
    let acc := applyOffsets keyLod x y ri rest
    -- "Only apply an offset layer if it sits on top of the resolved layer"
    if 0 ≤ ri ∧ (ld.index : Int) < ri then acc
    else
      match ld.layer.createHF ld.key with
      | none => acc
      | some g =>
        match g.sample x y with
        | some e =>
          if e ≠ NO_DATA_VALUE then
            (acc.1 + e, some ((keyLod : Int) - (ld.key.lod : Int)), true)
          else (acc.1, acc.2.1, true)
        | none => (acc.1, acc.2.1, true)

/-- Does this offset layer contribute to the pixel: not suppressed by the
resolved index, heightfield available, and its sample a successful
non-sentinel query? -/
def offsetContributes (x y : ℚ) (ri : Int) (ld : LayerData) : Bool :=
  !(decide (0 ≤ ri ∧ (ld.index : Int) < ri)) &&
  (match ld.layer.createHF ld.key with
   | some g =>
     match g.sample x y with
     | some e => decide (e ≠ NO_DATA_VALUE)
     | none => false
   | none => false)

/-- The sample an offset layer adds at `(x,y)` (meaningful when
`offsetContributes` holds). -/
def offsetSampleValue (x y : ℚ) (ld : LayerData) : Elev :=
  match ld.layer.createHF ld.key with
  | some g => (g.sample x y).getD 0
  | none => 0

/-- One output pixel of the general (resampling) path: the contender scan
writes the winning sample (and its LOD delta), then the offset pass adds on
top of whatever the pixel holds (the prior grid value when no contender
resolved).  Third component: whether `realData` was marked at this pixel. -/
def generalPixel (keyLod : Nat) (x y : ℚ) (prior : Elev)
    (contenders offsets : List LayerData) : Elev × Int × Bool :=
  let scan := scanContenders keyLod x y contenders
  let ri : Int := resolvedIndexAt keyLod x y contenders
  let base : Elev :=
    match scan.1 with
    | some (_, e, _) => e
    | none => prior
  let d0 : Int :=
    match scan.1 with
    | some (_, _, d) => d
    | none => 0
  let od := applyOffsets keyLod x y ri offsets
  (base + od.1,
   (match od.2.1 with
    | some d => d
    | none => d0),
   scan.2 || od.2.2)

/-- The single-contender fast path: exactly one contender, no offsets, the
contender's tile fetched directly (no parent walk) and used verbatim when
its dimensions match the output grid; otherwise the general path runs. -/
def fastPathResult (contenders offsets : List LayerData)
    (numColumns numRows : Nat) : Option HF :=
  if contenders.length = 1 ∧ offsets.isEmpty then
    match contenders.head? with
    | some ld =>
      match ld.layer.createHF ld.key with
      | some g =>
        if g.hf.numColumns = numColumns ∧ g.hf.numRows = numRows then some g.hf
        else none
      | none => none
    | none => none
  else none

/-- Modelled from the spec: `HeightFieldUtils::resolveInvalidHeights`
(outside this translation unit) fills "remaining no-data holes" — every
sample still equal to the sentinel is replaced by the environment's fill
value; valid samples are untouched. -/
def resolveInvalidHeights (fill : Nat → Nat → Elev) (h : Nat → Nat → Elev) :
    Nat → Nat → Elev :=
  fun c r => if h c r = NO_DATA_VALUE then fill c r else h c r

/-- Result of one composite call: the returned "real data present" flag, the
output grid, the per-pixel LOD-delta record (`deltaLOD`), and whether the
call got past the early-abort checks into the sampling stage. -/
structure PopulateResult where
  realData : Bool
  height : Nat → Nat → Elev
  delta : Nat → Nat → Int
  sampled : Bool

/-- Shallow embedding of
`ElevationLayerVector::populateHeightFieldAndNormalMap`.

`canceled` is the (call-constant) value observed from the progress token at
the cancellation checkpoints.  The per-call heightfield cache
(`heightFields` / `offsetFields`, with its 50-entry purge) memoizes the
deterministic per-layer fetches, so per-pixel recomputation is
value-identical to the source's caching; the purge resets both a cached
field and its fallback flag together and a refetch reproduces them.  The
normal map itself is synthesized by `createNormalMap`, modelled separately
below; this function carries the `deltaLOD` bookkeeping it would consume.
Out-of-range coordinates return the input grid (the source never touches
them). -/
def populateHeightFieldAndNormalMap (env : CompositorEnv)
    (layers : List ELayer) (hf0 : HF) (key : TileKey) (ext : Extent)
    (canceled : Bool) : PopulateResult :=
  let numColumns := hf0.numColumns
  let numRows := hf0.numRows
  let q := collectLayers env key numColumns layers
  let contenders := q.1
  let offsets := q.2.1
  let numFallbackLayers := q.2.2
  -- "nothing? bail out."
  if contenders.isEmpty ∧ offsets.isEmpty then
    ⟨false, hf0.data, fun _ _ => 0, false⟩
  -- "if everything is fallback data, bail out."
  else if contenders.length + offsets.length = numFallbackLayers then
    ⟨false, hf0.data, fun _ _ => 0, false⟩
  else
    match fastPathResult contenders offsets numColumns numRows with
    | some fhf =>
      -- direct copy, `realData = true`, deltas zero; the final
      -- `resolveInvalidHeights` pass and cancellation check still run.
      ⟨!canceled, resolveInvalidHeights env.fill fhf.data, fun _ _ => 0, true⟩
    | none =>
      if canceled then ⟨false, hf0.data, fun _ _ => 0, true⟩
      else
        let pix := fun c r =>
          generalPixel key.lod (pixelX ext numColumns c) (pixelY ext numRows r)
            (hf0.data c r) contenders offsets
        let rd := (List.range numColumns).any fun c =>
          (List.range numRows).any fun r => (pix c r).2.2
        ⟨rd,
         resolveInvalidHeights env.fill fun c r =>
           if c < numColumns ∧ r < numRows then (pix c r).1 else hf0.data c r,
         (fun c r =>
           if c < numColumns ∧ r < numRows then (pix c r).2.1 else 0),
         true⟩

/-! ## Normal synthesis (`getNormal` / `createNormalMap`)

Modelled for a projected (linear) reference system, where the source uses
the extent-derived spacing directly; the geographic branch rescales `dx`,
`dy` through the external ellipsoid before the identical cross-product, so
the interpolation structure under study is unchanged.  The source normalizes
each vector only as the final step before storage (`normal.normalize()`), so
the whole computation before that step is exact and is what
`createNormalMapRaw` returns; the unit-norm property of the stored vector is
stated over ℝ in the claim theorem. -/

/-- Shallow embedding of the anonymous-namespace `getNormal(extent, hf, s, t)`
(projected branch): spacing from the extent, central differences from the
four axis-aligned neighbors with the one-sided `(0,0,e)` default at grid
edges, combined by the cross product `(east-west) ^ (north-south)`. -/
def getNormal (ext : Extent) (hgt : Nat → Nat → ℚ) (w h : Nat) (s t : Nat) :
    Vec3Q :=
  let dx := (ext.xmax - ext.xmin) / ((w : ℚ) - 1)
  let dy := (ext.ymax - ext.ymin) / ((h : ℚ) - 1)
  let e := hgt s t
  let west : Vec3Q := if 0 < s then (-dx, 0, hgt (s - 1) t) else (0, 0, e)
  let east : Vec3Q := if s < w - 1 then (dx, 0, hgt (s + 1) t) else (0, 0, e)
  let south : Vec3Q := if 0 < t then (0, -dy, hgt s (t - 1)) else (0, 0, e)
  let north : Vec3Q := if t < h - 1 then (0, dy, hgt s (t + 1)) else (0, 0, e)
  vcross (vsub east west) (vsub north south)

/-- The interpolation block of `createNormalMap` (the `else` branch taken
when the step exceeds 1): normals are queried only at the enclosing
coarse-grid sample positions `s0, s1, t0, t1` (stepping by `step`, clamped
to the last row/column) and combined by the source's bilinear weights, with
its degenerate same-row / same-column / on-pixel special cases. -/
def interpolatedNormal (ext : Extent) (hgt : Nat → Nat → ℚ) (w h : Nat)
    (step : Nat) (s t : Nat) : Vec3Q :=
  let s0 := max (s - s % step) 0
  let s1 := if s % step = 0 then s0 else min (s0 + step) (w - 1)
  let t0 := max (t - t % step) 0
  let t1 := if t % step = 0 then t0 else min (t0 + step) (h - 1)
  if s0 = s1 ∧ t0 = t1 then getNormal ext hgt w h s0 t0
  else if s0 = s1 then
    vadd (vsmul ((t1 : ℚ) - (t : ℚ)) (getNormal ext hgt w h s0 t0))
         (vsmul ((t : ℚ) - (t0 : ℚ)) (getNormal ext hgt w h s0 t1))
  else if t0 = t1 then
    vadd (vsmul ((s1 : ℚ) - (s : ℚ)) (getNormal ext hgt w h s0 t0))
         (vsmul ((s : ℚ) - (s0 : ℚ)) (getNormal ext hgt w h s1 t0))
  else
    let cSW := getNormal ext hgt w h s0 t0
    let cSE := getNormal ext hgt w h s1 t0
    let cNW := getNormal ext hgt w h s0 t1
    let cNE := getNormal ext hgt w h s1 t1
    let rowS := vadd (vsmul ((s1 : ℚ) - (s : ℚ)) cSW)
                     (vsmul ((s : ℚ) - (s0 : ℚ)) cSE)
    let rowN := vadd (vsmul ((s1 : ℚ) - (s : ℚ)) cNW)
                     (vsmul ((s : ℚ) - (s0 : ℚ)) cNE)
    vadd (vsmul ((t1 : ℚ) - (t : ℚ)) rowS) (vsmul ((t : ℚ) - (t0 : ℚ)) rowN)

/-- Shallow embedding of the anonymous-namespace `createNormalMap` at one
pixel, before the final `normalize()`.  `deltaLOD` is the linear delta
array; the source reads it at `t*h + s` (`h` being the row count) and steps
by `1 << delta` (here `2 ^ delta`; the array models the nonnegative-delta
regime — a left shift by a negative count is undefined in the source's
language).  Where the step is 1 the normal is the direct central-difference
query; otherwise the interpolation block runs. -/
def createNormalMapRaw (ext : Extent) (hgt : Nat → Nat → ℚ) (w h : Nat)
    (deltaLOD : Nat → Nat) (s t : Nat) : Vec3Q :=
  let step : Nat := 2 ^ deltaLOD (t * h + s)
  if step = 1 then getNormal ext hgt w h s t
  else interpolatedNormal ext hgt w h step s t

/-! ## Helper lemmas -/

theorem fetchWalk_direct (layer : ELayer) (k : TileKey) (g : GeoHF)
    (hl : layer.isKeyInLegalRange k = true) (hc : layer.createHF k = some g) :
    fetchWalk layer k = some (g, k) := by
  rw [fetchWalk, if_pos hl, hc]

theorem scanContenders_first_win (keyLod : Nat) (x y : ℚ)
    (l1 l2 : List LayerData) (ld : LayerData) (g : GeoHF) (fk : TileKey)
    (e : Elev) (h1 : ∀ ld2 ∈ l1, resolvesAt x y ld2 = false)
    (hf : fetchWalk ld.layer ld.key = some (g, fk))
    (hs : g.sample x y = some e) (hne : e ≠ NO_DATA_VALUE) :
    (scanContenders keyLod x y (l1 ++ ld :: l2)).1 =
      some ((ld.index : Int), e, (keyLod : Int) - (fk.lod : Int)) := by
  induction l1 with
  | nil => simp [scanContenders, hf, hs, hne]
  | cons a l1 ih =>
    have ha : resolvesAt x y a = false := h1 a (List.mem_cons_self _ _)
    have hrest := ih fun ld2 hm => h1 ld2 (List.mem_cons_of_mem _ hm)
    rcases hfa : fetchWalk a.layer a.key with _ | ⟨ga, fka⟩
    · simpa [scanContenders, hfa] using hrest
    · rcases hsa : ga.sample x y with _ | ea
      · simpa [scanContenders, hfa, hsa] using hrest
      · have hea : ea = NO_DATA_VALUE := by
          by_contra hne2
          simp [resolvesAt, hfa, hsa, hne2] at ha
        subst hea
        simpa [scanContenders, hfa, hsa] using hrest

theorem scanContenders_mark_cons (keyLod : Nat) (x y : ℚ) (a : LayerData)
    (L : List LayerData) :
    (scanContenders keyLod x y (a :: L)).2 =
      (availableNonFallback a ||
        (!(resolvesAt x y a) && (scanContenders keyLod x y L).2)) := by
  rcases hfa : fetchWalk a.layer a.key with _ | ⟨ga, fka⟩
  · simp [scanContenders, hfa, availableNonFallback, resolvesAt]
  · rcases hsa : ga.sample x y with _ | ea
    · simp [scanContenders, hfa, hsa, availableNonFallback, resolvesAt]
    · by_cases hne : ea = NO_DATA_VALUE
      · simp [scanContenders, hfa, hsa, hne, availableNonFallback, resolvesAt]
      · simp [scanContenders, hfa, hsa, hne, availableNonFallback, resolvesAt]

theorem scanContenders_mark_iff (keyLod : Nat) (x y : ℚ) (L : List LayerData) :
    (scanContenders keyLod x y L).2 = true ↔
      ∃ l1 ld l2, L = l1 ++ ld :: l2 ∧
        (∀ ld2 ∈ l1, resolvesAt x y ld2 = false) ∧
        availableNonFallback ld = true := by
  induction L with
  | nil =>
    simp only [scanContenders]
    constructor
    · intro h
      exact absurd h (by simp)
    · rintro ⟨l1, ld, l2, h, -, -⟩
      exact absurd h (by simp)
  | cons a L ih =>
    rw [scanContenders_mark_cons]
    constructor
    · intro h
      rcases Bool.or_eq_true_iff.mp h with h | h
      · exact ⟨[], a, L, rfl, by simp, h⟩
      · obtain ⟨hra, hm⟩ := Bool.and_eq_true_iff.mp h
        obtain ⟨l1, ld, l2, hL, hall, hav⟩ := ih.mp hm
        refine ⟨a :: l1, ld, l2, by simp [hL], ?_, hav⟩
        intro ld2 hmem
        rcases List.mem_cons.mp hmem with rfl | hmem
        · simpa using hra
        · exact hall ld2 hmem
    · rintro ⟨l1, ld, l2, hL, hall, hav⟩
      cases l1 with
      | nil =>
        simp only [List.nil_append] at hL
        injection hL with h1 h2
        subst h1
        exact Bool.or_eq_true_iff.mpr (Or.inl hav)
      | cons b l1 =>
        rw [List.cons_append] at hL
        injection hL with h1 h2
        subst h1
        subst h2
        refine Bool.or_eq_true_iff.mpr (Or.inr (Bool.and_eq_true_iff.mpr ⟨?_, ?_⟩))
        · simp [hall a (List.mem_cons_self _ _)]
        · exact ih.mpr ⟨l1, ld, l2, rfl,
            fun ld2 hm => hall ld2 (List.mem_cons_of_mem _ hm), hav⟩

theorem applyOffsets_mark_cons (keyLod : Nat) (x y : ℚ) (ri : Int)
    (ld : LayerData) (rest : List LayerData) :
    (applyOffsets keyLod x y ri (ld :: rest)).2.2 =
      ((!(decide (0 ≤ ri ∧ (ld.index : Int) < ri)) &&
          (ld.layer.createHF ld.key).isSome) ||
        (applyOffsets keyLod x y ri rest).2.2) := by
  by_cases hsup : 0 ≤ ri ∧ (ld.index : Int) < ri
  · simp [applyOffsets, hsup]
  · rcases hc : ld.layer.createHF ld.key with _ | g
    · simp [applyOffsets, hsup, hc]
    · rcases hs : g.sample x y with _ | e
      · simp [applyOffsets, hsup, hc, hs]
      · by_cases hne : e = NO_DATA_VALUE <;>
          simp [applyOffsets, hsup, hc, hs, hne]

theorem applyOffsets_mark_iff (keyLod : Nat) (x y : ℚ) (ri : Int)
    (offs : List LayerData) :
    (applyOffsets keyLod x y ri offs).2.2 = true ↔
      ∃ ld ∈ offs, ¬(0 ≤ ri ∧ (ld.index : Int) < ri) ∧
        (ld.layer.createHF ld.key).isSome = true := by
  induction offs with
  | nil => simp [applyOffsets]
  | cons ld rest ih =>
    rw [applyOffsets_mark_cons]
    simp only [Bool.or_eq_true, Bool.and_eq_true, Bool.not_eq_true',
      decide_eq_false_iff_not, ih, List.mem_cons]
    constructor
    · rintro (⟨h1, h2⟩ | ⟨ld2, hm, h1, h2⟩)
      · exact ⟨ld, Or.inl rfl, h1, h2⟩
      · exact ⟨ld2, Or.inr hm, h1, h2⟩
    · rintro ⟨ld2, h | hm, h1, h2⟩
      · subst h
        exact Or.inl ⟨h1, h2⟩
      · exact Or.inr ⟨ld2, hm, h1, h2⟩

theorem applyOffsets_sum (keyLod : Nat) (x y : ℚ) (ri : Int)
    (offs : List LayerData) :
    (applyOffsets keyLod x y ri offs).1 =
      ((offs.filter (offsetContributes x y ri)).map (offsetSampleValue x y)).sum := by
  induction offs with
  | nil => simp [applyOffsets]
  | cons ld rest ih =>
    by_cases hsup : 0 ≤ ri ∧ (ld.index : Int) < ri
    · have hnc : offsetContributes x y ri ld = false := by
        simp [offsetContributes, hsup]
      simp [applyOffsets, hsup, List.filter_cons, hnc, ih]
    · rcases hc : ld.layer.createHF ld.key with _ | g
      · have hnc : offsetContributes x y ri ld = false := by
          simp [offsetContributes, hsup, hc]
        simp [applyOffsets, hsup, hc, List.filter_cons, hnc, ih]
      · rcases hs : g.sample x y with _ | e
        · have hnc : offsetContributes x y ri ld = false := by
            simp [offsetContributes, hsup, hc, hs]
          simp [applyOffsets, hsup, hc, hs, List.filter_cons, hnc, ih]
        · by_cases hne : e = NO_DATA_VALUE
          · have hnc : offsetContributes x y ri ld = false := by
              simp [offsetContributes, hsup, hc, hs, hne]
            simp [applyOffsets, hsup, hc, hs, hne, List.filter_cons, hnc, ih]
          · have hyc : offsetContributes x y ri ld = true := by
              simp [offsetContributes, hsup, hc, hs, hne]
            have hval : offsetSampleValue x y ld = e := by
              simp [offsetSampleValue, hc, hs]
            simp [applyOffsets, hsup, hc, hs, hne, List.filter_cons, hyc,
              hval, ih]
            omega

theorem applyOffsets_delta (keyLod : Nat) (x y : ℚ) (ri : Int)
    (offs : List LayerData) :
    (applyOffsets keyLod x y ri offs).2.1 =
      (offs.find? (offsetContributes x y ri)).map
        (fun ld2 => (keyLod : Int) - (ld2.key.lod : Int)) := by
  induction offs with
  | nil => simp [applyOffsets]
  | cons ld rest ih =>
    by_cases hsup : 0 ≤ ri ∧ (ld.index : Int) < ri
    · have hnc : ¬offsetContributes x y ri ld = true := by
        simp [offsetContributes, hsup]
      simp [applyOffsets, hsup, List.find?_cons_of_neg _ hnc, ih]
    · rcases hc : ld.layer.createHF ld.key with _ | g
      · have hnc : ¬offsetContributes x y ri ld = true := by
          simp [offsetContributes, hsup, hc]
        simp [applyOffsets, hsup, hc, List.find?_cons_of_neg _ hnc, ih]
      · rcases hs : g.sample x y with _ | e
        · have hnc : ¬offsetContributes x y ri ld = true := by
            simp [offsetContributes, hsup, hc, hs]
          simp [applyOffsets, hsup, hc, hs, List.find?_cons_of_neg _ hnc, ih]
        · by_cases hne : e = NO_DATA_VALUE
          · have hnc : ¬offsetContributes x y ri ld = true := by
              simp [offsetContributes, hsup, hc, hs, hne]
            simp [applyOffsets, hsup, hc, hs, hne,
              List.find?_cons_of_neg _ hnc, ih]
          · have hyc : offsetContributes x y ri ld = true := by
              simp [offsetContributes, hsup, hc, hs, hne]
            simp [applyOffsets, hsup, hc, hs, hne,
              List.find?_cons_of_pos _ hyc]

theorem applyOffsets_suppressed_erase (keyLod : Nat) (x y : ℚ) (ri : Int)
    (l1 l2 : List LayerData) (ld : LayerData)
    (h0 : 0 ≤ ri) (hlt : (ld.index : Int) < ri) :
    applyOffsets keyLod x y ri (l1 ++ ld :: l2) =
      applyOffsets keyLod x y ri (l1 ++ l2) := by
  induction l1 with
  | nil =>
    rw [List.nil_append, List.nil_append, applyOffsets, if_pos ⟨h0, hlt⟩]
  | cons a l1 ih =>
    rw [List.cons_append, List.cons_append, applyOffsets, applyOffsets, ih]

theorem applyOffsets_sum_order (keyLod : Nat) (x y : ℚ) (ri : Int)
    (offs : List LayerData) :
    (applyOffsets keyLod x y ri offs.reverse).1 =
      (applyOffsets keyLod x y ri offs).1 := by
  rw [applyOffsets_sum, applyOffsets_sum, List.filter_reverse,
    List.map_reverse, List.sum_reverse]

theorem collectAux_fallback_count (env : CompositorEnv) (key : TileKey)
    (cols : Nat) (l : List (Nat × ELayer)) :
    (collectAux env.mapResolution key cols l).2.2 =
      (collectAux env.mapResolution key cols l).1.countP
        (isFallbackLD env key cols) +
      (collectAux env.mapResolution key cols l).2.1.countP
        (isFallbackLD env key cols) := by
  induction l with
  | nil => simp [collectAux]
  | cons hd rest ih =>
    obtain ⟨i, layer⟩ := hd
    rcases hcl : considerLayer env.mapResolution key cols i layer with _ | ⟨ld, fb⟩
    · simpa [collectAux, hcl] using ih
    · have hfb : fb = isFallbackLD env key cols ld := by
        simp only [considerLayer] at hcl
        split at hcl
        · split at hcl
          · exact absurd hcl (by simp)
          · split at hcl
            · injection hcl with hcl
              injection hcl with hld hfb2
              subst hld
              subst hfb2
              simp [isFallbackLD]
            · exact absurd hcl (by simp)
        · exact absurd hcl (by simp)
      by_cases hoff : ld.layer.offsetLayer = true
      · simp only [collectAux, hcl, hoff, if_pos, List.countP_append, ih, hfb,
          List.countP_cons]
        simp only [List.countP_nil]
        by_cases hf2 : isFallbackLD env key cols ld = true <;> simp [hf2] <;> omega
      · simp only [collectAux, hcl, hoff, if_neg, List.countP_append, ih, hfb,
          List.countP_cons, Bool.false_eq_true, if_false]
        simp only [List.countP_nil]
        by_cases hf2 : isFallbackLD env key cols ld = true <;> simp [hf2] <;> omega

/-! ## Claim theorems -/

/-- C4: when no contender and no offset layer qualifies for the requested
tile key, or when every qualifying layer (contenders plus offsets together)
would supply only fallback data (best-available key different from the
resolution-mapped key), the compositor returns "no real data" without
entering the per-pixel sampling stage, leaving the output grid and the
LOD-delta record untouched. -/
theorem C4_all_fallback_short_circuit (env : CompositorEnv)
    (layers : List ELayer) (hf0 : HF) (key : TileKey) (ext : Extent)
    (canceled : Bool)
    (h : ((collectLayers env key hf0.numColumns layers).1.isEmpty = true ∧
          (collectLayers env key hf0.numColumns layers).2.1.isEmpty = true) ∨
         (collectLayers env key hf0.numColumns layers).1.length +
           (collectLayers env key hf0.numColumns layers).2.1.length =
           (collectLayers env key hf0.numColumns layers).2.2) :
    populateHeightFieldAndNormalMap env layers hf0 key ext canceled =
      ⟨false, hf0.data, fun _ _ => 0, false⟩ := by
  simp only [populateHeightFieldAndNormalMap]
  by_cases h1 : ((collectLayers env key hf0.numColumns layers).1.isEmpty = true ∧
      (collectLayers env key hf0.numColumns layers).2.1.isEmpty = true)
  · rw [if_pos h1]
  · rcases h with h | h
    · exact absurd h h1
    · rw [if_neg h1, if_pos h]

/-- C4 witness: a composite call over an empty layer stack aborts early with
no real data and an untouched grid. -/
theorem C4_all_fallback_short_circuit_witness :
    populateHeightFieldAndNormalMap ⟨fun k _ _ => k, fun _ _ => 0⟩ []
        ⟨2, 2, fun _ _ => 7⟩ ⟨1, 2, 3⟩ ⟨0, 0, 1, 1⟩ false =
      ⟨false, (⟨2, 2, fun _ _ => 7⟩ : HF).data, fun _ _ => 0, false⟩ :=
  C4_all_fallback_short_circuit ⟨fun k _ _ => k, fun _ _ => 0⟩ [] ⟨2, 2, fun _ _ => 7⟩
    ⟨1, 2, 3⟩ ⟨0, 0, 1, 1⟩ false (Or.inl ⟨rfl, rfl⟩)

/-- C9: the per-key at-most-one-producer guard is absent — the sentry lock in
`ElevationLayer::createHeightField` is only a comment (`//_sentry.lock(key)`)
— so with a cold cache the interleaving in which both calls perform their
cache lookup before either write-through performs two underlying source
fetches for the same key; the fully serialized schedule performs one. -/
theorem C9_no_sentry_duplicate_fetch :
    (sentrylessRun ⟨2, 2, [1, 2, 3, 4]⟩ [false, true, false, true]).fetches = 2 ∧
    (sentrylessRun ⟨2, 2, [1, 2, 3, 4]⟩ [false, false, true, true]).fetches = 1 :=
  ⟨rfl, rfl⟩

/-- C3: per output pixel the offset pass (1) is unaffected by any offset
layer whose priority index lies strictly below the winning contender's
resolved index — removing such an entry changes nothing, so it never alters
the pixel; (2) adds exactly the sum of the contributing offsets' non-sentinel
samples; (3) records as LOD delta the value of the first contributing offset
of the highest-priority-first list — i.e. the highest-priority, last-applied
contributing offset (the loop walks the list from its tail, lowest priority
first, overwriting the record); and (4) yields a summed elevation
independent of the application order. -/
theorem C3_offset_pass (keyLod : Nat) (x y : ℚ) (ri : Int)
    (offs l1 l2 : List LayerData) (ld : LayerData)
    (h0 : 0 ≤ ri) (hlt : (ld.index : Int) < ri) :
    (applyOffsets keyLod x y ri (l1 ++ ld :: l2) =
       applyOffsets keyLod x y ri (l1 ++ l2)) ∧
    ((applyOffsets keyLod x y ri offs).1 =
      ((offs.filter (offsetContributes x y ri)).map (offsetSampleValue x y)).sum) ∧
    ((applyOffsets keyLod x y ri offs).2.1 =
      (offs.find? (offsetContributes x y ri)).map
        (fun ld2 => (keyLod : Int) - (ld2.key.lod : Int))) ∧
    ((applyOffsets keyLod x y ri offs.reverse).1 =
      (applyOffsets keyLod x y ri offs).1) :=
  ⟨applyOffsets_suppressed_erase keyLod x y ri l1 l2 ld h0 hlt,
   applyOffsets_sum keyLod x y ri offs,
   applyOffsets_delta keyLod x y ri offs,
   applyOffsets_sum_order keyLod x y ri offs⟩

/-- C3 witness: a concrete suppressed offset (priority index 0 below resolved
index 1) together with a concrete pixel evaluation of the offset pass. -/
theorem C3_offset_pass_witness :
    (applyOffsets 4 0 0 1
        ([] ++ ⟨⟨true, true, true, 0, 17, fun _ => none, fun _ => true,
                 fun _ => some ⟨⟨2, 2, fun _ _ => 5⟩, fun _ _ => some 5⟩⟩,
                ⟨3, 0, 0⟩, 0⟩ :: []) =
      applyOffsets 4 0 0 1 ([] ++ [])) ∧
    ((applyOffsets 4 0 0 1
        [⟨⟨true, true, true, 0, 17, fun _ => none, fun _ => true,
           fun _ => some ⟨⟨2, 2, fun _ _ => 5⟩, fun _ _ => some 5⟩⟩,
          ⟨3, 0, 0⟩, 0⟩]).1 =
      (([⟨⟨true, true, true, 0, 17, fun _ => none, fun _ => true,
           fun _ => some ⟨⟨2, 2, fun _ _ => 5⟩, fun _ _ => some 5⟩⟩,
          ⟨3, 0, 0⟩, 0⟩].filter (offsetContributes 0 0 1)).map
        (offsetSampleValue 0 0)).sum) ∧
    ((applyOffsets 4 0 0 1
        [⟨⟨true, true, true, 0, 17, fun _ => none, fun _ => true,
           fun _ => some ⟨⟨2, 2, fun _ _ => 5⟩, fun _ _ => some 5⟩⟩,
          ⟨3, 0, 0⟩, 0⟩]).2.1 =
      ([⟨⟨true, true, true, 0, 17, fun _ => none, fun _ => true,
          fun _ => some ⟨⟨2, 2, fun _ _ => 5⟩, fun _ _ => some 5⟩⟩,
         ⟨3, 0, 0⟩, 0⟩].find? (offsetContributes 0 0 1)).map
        (fun ld2 => (4 : Int) - (ld2.key.lod : Int))) ∧
    ((applyOffsets 4 0 0 1
        ([⟨⟨true, true, true, 0, 17, fun _ => none, fun _ => true,
            fun _ => some ⟨⟨2, 2, fun _ _ => 5⟩, fun _ _ => some 5⟩⟩,
           ⟨3, 0, 0⟩, 0⟩] : List LayerData).reverse).1 =
      (applyOffsets 4 0 0 1
        [⟨⟨true, true, true, 0, 17, fun _ => none, fun _ => true,
           fun _ => some ⟨⟨2, 2, fun _ _ => 5⟩, fun _ _ => some 5⟩⟩,
          ⟨3, 0, 0⟩, 0⟩]).1) :=
  C3_offset_pass 4 0 0 1
    [⟨⟨true, true, true, 0, 17, fun _ => none, fun _ => true,
       fun _ => some ⟨⟨2, 2, fun _ _ => 5⟩, fun _ _ => some 5⟩⟩,
      ⟨3, 0, 0⟩, 0⟩] [] []
    ⟨⟨true, true, true, 0, 17, fun _ => none, fun _ => true,
       fun _ => some ⟨⟨2, 2, fun _ _ => 5⟩, fun _ _ => some 5⟩⟩,
      ⟨3, 0, 0⟩, 0⟩ (by decide) (by decide)

/-- C5: the resolver serves an expired persistent-cache grid only after every
fresher option is exhausted: (1) a still-valid persistent hit is used as-is
with no fresh production and no persistent write-back; (2) a fresh production
that passes validation is returned (vertical-datum-transformed and
no-data-normalized) and written to the persistent tier; (3) a fresh
production that fails validation is discarded and the retained expired
cached grid is returned instead, with nothing written; (4) when no fresh
grid could be produced at all, the expired grid is served rather than
failing. -/
theorem C5_expired_fallback_order (env : ResolverEnv) (policy : CachePolicy)
    (polls : Nat → Bool)
    (hmem : env.memStore (memCacheKey env.revision env.keyStr env.horizSig) = none)
    (hprof : env.profileValid = true) (hbin : env.cacheBin = true)
    (hread : policy.readable = true) (hco : policy.cacheOnly = false)
    (hlegal : env.keyInLegalRange = true)
    (hhoriz : env.profilesHorizEquivalent = true)
    (hp0 : polls 0 = false) (hp1 : polls 1 = false) :
    (∀ chf, env.persistentRead = some (chf, false) →
      validateHeightField chf = true →
      createHeightFieldInKeyProfile env policy polls =
        ⟨some chf, none,
         (if env.memCacheEnabled then
            some (memCacheKey env.revision env.keyStr env.horizSig, chf)
          else none),
         true, false, false, true⟩) ∧
    (∀ chf f, env.persistentRead = some (chf, true) → env.createImpl = some f →
      validateHeightField f = true → policy.writable = true →
      createHeightFieldInKeyProfile env policy polls =
        ⟨some (postProcess env f), some (postProcess env f),
         (if env.memCacheEnabled then
            some (memCacheKey env.revision env.keyStr env.horizSig,
                  postProcess env f)
          else none),
         true, true, false, false⟩) ∧
    (∀ chf f, env.persistentRead = some (chf, true) → env.createImpl = some f →
      validateHeightField f = false →
      createHeightFieldInKeyProfile env policy polls =
        ⟨some chf, none,
         (if env.memCacheEnabled then
            some (memCacheKey env.revision env.keyStr env.horizSig, chf)
          else none),
         true, true, false, false⟩) ∧
    (∀ chf, env.persistentRead = some (chf, true) → env.createImpl = none →
      createHeightFieldInKeyProfile env policy polls =
        ⟨some chf, none,
         (if env.memCacheEnabled then
            some (memCacheKey env.revision env.keyStr env.horizSig, chf)
          else none),
         true, true, false, false⟩) := by
  refine ⟨?_, ?_, ?_, ?_⟩
  · intro chf hpr hv
    simp [createHeightFieldInKeyProfile, hmem, hprof, hbin, hread, hco,
      hlegal, hhoriz, hp0, hp1, hpr, hv]
  · intro chf f hpr himpl hv hw
    simp [createHeightFieldInKeyProfile, hmem, hprof, hbin, hread, hco,
      hlegal, hhoriz, hp0, hp1, hpr, himpl, hv, hw]
  · intro chf f hpr himpl hv
    simp [createHeightFieldInKeyProfile, hmem, hprof, hbin, hread, hco,
      hlegal, hhoriz, hp0, hp1, hpr, himpl, hv]
  · intro chf hpr himpl
    simp [createHeightFieldInKeyProfile, hmem, hprof, hbin, hread, hco,
      hlegal, hhoriz, hp0, hp1, hpr, himpl]

/-- C5 witness: an expired valid persistent entry together with a failing
backend (no fresh production) — the expired grid is served. -/
theorem C5_expired_fallback_order_witness :
    createHeightFieldInKeyProfile
      ⟨3, "K", "S", false, fun _ => none, true, some (⟨2, 2, [5, 5, 5, 5]⟩, true),
       true, true, true, none, none, true, id, -32767, -11000, 9000⟩
      ⟨false, true, true⟩ (fun _ => false) =
      ⟨some ⟨2, 2, [5, 5, 5, 5]⟩, none, none, true, true, false, false⟩ :=
  (C5_expired_fallback_order
    ⟨3, "K", "S", false, fun _ => none, true, some (⟨2, 2, [5, 5, 5, 5]⟩, true),
     true, true, true, none, none, true, id, -32767, -11000, 9000⟩
    ⟨false, true, true⟩ (fun _ => false)
    rfl rfl rfl rfl rfl rfl rfl rfl rfl).2.2.2 ⟨2, 2, [5, 5, 5, 5]⟩ rfl rfl

/-- C6 (amended): each cache write is preceded by a cancellation check: if
cancellation is observed at the first check the call executes, the call
returns invalid and writes to neither tier; consequently a persistent write
can only happen after its preceding check observed no cancellation, and a
memory-cache write only after every check the call executed observed none.
(A token observed cancelled only at the later, pre-memory-write check cannot
retract the persistent write already performed — see the counterexample.) -/
theorem C6_cancellation_checks (env : ResolverEnv) (policy : CachePolicy)
    (polls : Nat → Bool) :
    (polls 0 = true →
      (createHeightFieldInKeyProfile env policy polls).result = none ∧
      (createHeightFieldInKeyProfile env policy polls).wrotePersistent = none ∧
      (createHeightFieldInKeyProfile env policy polls).wroteMem = none) ∧
    ((createHeightFieldInKeyProfile env policy polls).wrotePersistent ≠ none →
      polls 0 = false) ∧
    ((createHeightFieldInKeyProfile env policy polls).wroteMem ≠ none →
      polls 0 = false ∧
      ((createHeightFieldInKeyProfile env policy polls).attemptedFresh = true →
        polls 1 = false)) := by
  have A : polls 0 = true →
      (createHeightFieldInKeyProfile env policy polls).result = none ∧
      (createHeightFieldInKeyProfile env policy polls).wrotePersistent = none ∧
      (createHeightFieldInKeyProfile env policy polls).wroteMem = none := by
    intro h
    simp only [createHeightFieldInKeyProfile]
    repeat' split
    all_goals simp_all
  have B : polls 1 = true →
      (createHeightFieldInKeyProfile env policy polls).attemptedFresh = false ∨
      (createHeightFieldInKeyProfile env policy polls).wroteMem = none := by
    intro h
    simp only [createHeightFieldInKeyProfile]
    repeat' split
    all_goals simp_all
  refine ⟨A, ?_, ?_⟩
  · intro h
    cases hp : polls 0 with
    | false => rfl
    | true => exact absurd (A hp).2.1 h
  · intro h
    refine ⟨?_, ?_⟩
    · cases hp : polls 0 with
      | false => rfl
      | true => exact absurd (A hp).2.2 h
    · intro haf
      cases hp : polls 1 with
      | false => rfl
      | true =>
        rcases B hp with hb | hb
        · rw [haf] at hb
          exact absurd hb (by simp)
        · exact absurd hb h

/-- C6 counterexample: with progress observed uncancelled at the
pre-persistent-write check and cancelled at the pre-memory-write check, the
call returns an invalid result yet the freshly produced grid has already
been written to the persistent tier, refuting "returns an invalid result and
writes nothing to either cache tier". -/
theorem C6_cancellation_counterexample :
    (createHeightFieldInKeyProfile
        ⟨3, "K", "S", false, fun _ => none, true, none, true, true, true,
         some ⟨2, 2, [1, 2, 3, 4]⟩, none, true, id, -32767, -11000, 9000⟩
        ⟨false, true, true⟩ (fun i => decide (i = 1))).result = none ∧
    (createHeightFieldInKeyProfile
        ⟨3, "K", "S", false, fun _ => none, true, none, true, true, true,
         some ⟨2, 2, [1, 2, 3, 4]⟩, none, true, id, -32767, -11000, 9000⟩
        ⟨false, true, true⟩ (fun i => decide (i = 1))).wrotePersistent =
      some ⟨2, 2, [1, 2, 3, 4]⟩ :=
  ⟨rfl, rfl⟩

/-- C10: when the memory cache is enabled and a resolve call falls back to an
expired persistent grid, that grid is written through to the memory cache
under the (source revision, key string, scheme signature) composite key; a
subsequent resolve finding that entry returns the same grid from the
memory-cache fast path, consulting neither the persistent tier nor the
backend. -/
theorem C10_expired_writethrough_memcache (env : ResolverEnv)
    (policy : CachePolicy) (polls polls2 : Nat → Bool) (chf : HField)
    (hmemE : env.memCacheEnabled = true)
    (hmem : env.memStore (memCacheKey env.revision env.keyStr env.horizSig) = none)
    (hprof : env.profileValid = true) (hbin : env.cacheBin = true)
    (hread : policy.readable = true) (hco : policy.cacheOnly = false)
    (hlegal : env.keyInLegalRange = true)
    (hhoriz : env.profilesHorizEquivalent = true)
    (hpr : env.persistentRead = some (chf, true))
    (himpl : env.createImpl = none)
    (hp0 : polls 0 = false) (hp1 : polls 1 = false) (hq0 : polls2 0 = false) :
    createHeightFieldInKeyProfile env policy polls =
      ⟨some chf, none,
       some (memCacheKey env.revision env.keyStr env.horizSig, chf),
       true, true, false, false⟩ ∧
    createHeightFieldInKeyProfile
      { env with memStore := fun s =>
          if s = memCacheKey env.revision env.keyStr env.horizSig then some chf
          else env.memStore s }
      policy polls2 =
      ⟨some chf, none, none, false, false, true, false⟩ := by
  constructor
  · simp [createHeightFieldInKeyProfile, hmem, hmemE, hprof, hbin, hread, hco,
      hlegal, hhoriz, hpr, himpl, hp0, hp1]
  · simp [createHeightFieldInKeyProfile, hmemE, hq0]

/-- C10 witness: a concrete expired-fallback resolve followed by the
memory-cache fast-path hit on the written-through entry. -/
theorem C10_expired_writethrough_memcache_witness :
    createHeightFieldInKeyProfile
      ⟨3, "K", "S", true, fun _ => none, true, some (⟨2, 2, [5, 5, 5, 5]⟩, true),
       true, true, true, none, none, true, id, -32767, -11000, 9000⟩
      ⟨false, true, true⟩ (fun _ => false) =
      ⟨some ⟨2, 2, [5, 5, 5, 5]⟩, none,
       some (memCacheKey 3 "K" "S", ⟨2, 2, [5, 5, 5, 5]⟩),
       true, true, false, false⟩ ∧
    createHeightFieldInKeyProfile
      ⟨3, "K", "S", true,
       fun s => if s = memCacheKey 3 "K" "S" then some ⟨2, 2, [5, 5, 5, 5]⟩
         else none,
       true, some (⟨2, 2, [5, 5, 5, 5]⟩, true),
       true, true, true, none, none, true, id, -32767, -11000, 9000⟩
      ⟨false, true, true⟩ (fun _ => false) =
      ⟨some ⟨2, 2, [5, 5, 5, 5]⟩, none, none, false, false, true, false⟩ :=
  C10_expired_writethrough_memcache
    ⟨3, "K", "S", true, fun _ => none, true, some (⟨2, 2, [5, 5, 5, 5]⟩, true),
     true, true, true, none, none, true, id, -32767, -11000, 9000⟩
    ⟨false, true, true⟩ (fun _ => false) (fun _ => false) ⟨2, 2, [5, 5, 5, 5]⟩
    rfl rfl rfl rfl rfl rfl rfl rfl rfl rfl rfl rfl rfl

/-- C6 witness: with a token canceled from the start, the resolve call
returns invalid and writes to neither cache tier. -/
theorem C6_cancellation_checks_witness :
    (createHeightFieldInKeyProfile
        ⟨3, "K", "S", false, fun _ => none, true, none, true, true, true,
         some ⟨2, 2, [1, 2, 3, 4]⟩, none, true, id, -32767, -11000, 9000⟩
        ⟨false, true, true⟩ (fun _ => true)).result = none ∧
    (createHeightFieldInKeyProfile
        ⟨3, "K", "S", false, fun _ => none, true, none, true, true, true,
         some ⟨2, 2, [1, 2, 3, 4]⟩, none, true, id, -32767, -11000, 9000⟩
        ⟨false, true, true⟩ (fun _ => true)).wrotePersistent = none ∧
    (createHeightFieldInKeyProfile
        ⟨3, "K", "S", false, fun _ => none, true, none, true, true, true,
         some ⟨2, 2, [1, 2, 3, 4]⟩, none, true, id, -32767, -11000, 9000⟩
        ⟨false, true, true⟩ (fun _ => true)).wroteMem = none :=
  (C6_cancellation_checks
    ⟨3, "K", "S", false, fun _ => none, true, none, true, true, true,
     some ⟨2, 2, [1, 2, 3, 4]⟩, none, true, id, -32767, -11000, 9000⟩
    ⟨false, true, true⟩ (fun _ => true)).1 rfl

/-- C2: contenders are examined in decreasing priority-index order and the
first whose available heightfield yields a successful non-sentinel sample at
the pixel wins, its priority index being recorded as the resolved index
(first conjunct, over any contender list); consequently, for a stack of two
overlapping base layers where the higher-priority layer `B` holds valid
(non-sentinel) data at the pixel, the composited pixel equals `B`'s sample
and never the lower-priority layer's (second conjunct). -/
theorem C2_priority_first_win (env : CompositorEnv) (A B : ELayer) (hf0 : HF)
    (key : TileKey) (ext : Extent) (kA kB : TileKey) (gB : GeoHF) (e : Elev)
    (c r : Nat)
    (hAe : A.enabled = true) (hAv : A.visible = true)
    (hAo : A.offsetLayer = false)
    (hBe : B.enabled = true) (hBv : B.visible = true)
    (hBo : B.offsetLayer = false)
    (hAm : ¬key.lod < A.minLevel) (hBm : ¬key.lod < B.minLevel)
    (hAb : A.bestAvailableTileKey
      (env.mapResolution key hf0.numColumns A.tileSize) = some kA)
    (hBb : B.bestAvailableTileKey
      (env.mapResolution key hf0.numColumns B.tileSize) = some kB)
    (hnot : kB = env.mapResolution key hf0.numColumns B.tileSize ∨
            kA = env.mapResolution key hf0.numColumns A.tileSize)
    (hBl : B.isKeyInLegalRange kB = true)
    (hBc : B.createHF kB = some gB)
    (hBs : gB.sample (pixelX ext hf0.numColumns c)
      (pixelY ext hf0.numRows r) = some e)
    (hne : e ≠ NO_DATA_VALUE)
    (hc : c < hf0.numColumns) (hr : r < hf0.numRows) :
    (∀ (keyLod : Nat) (x y : ℚ) (l1 l2 : List LayerData) (ld : LayerData)
        (g : GeoHF) (fk : TileKey) (ev : Elev),
        (∀ ld2 ∈ l1, resolvesAt x y ld2 = false) →
        fetchWalk ld.layer ld.key = some (g, fk) →
        g.sample x y = some ev → ev ≠ NO_DATA_VALUE →
        (scanContenders keyLod x y (l1 ++ ld :: l2)).1 =
          some ((ld.index : Int), ev, (keyLod : Int) - (fk.lod : Int))) ∧
    (populateHeightFieldAndNormalMap env [A, B] hf0 key ext false).height c r
      = e := by
  refine ⟨fun keyLod x y l1 l2 ld g fk ev h1 h2 h3 h4 =>
    scanContenders_first_win keyLod x y l1 l2 ld g fk ev h1 h2 h3 h4, ?_⟩
  have hconsB : considerLayer env.mapResolution key hf0.numColumns 1 B =
      some (⟨B, kB, 1⟩,
        decide (kB ≠ env.mapResolution key hf0.numColumns B.tileSize)) := by
    simp [considerLayer, hBe, hBv, hBm, hBb]
  have hconsA : considerLayer env.mapResolution key hf0.numColumns 0 A =
      some (⟨A, kA, 0⟩,
        decide (kA ≠ env.mapResolution key hf0.numColumns A.tileSize)) := by
    simp [considerLayer, hAe, hAv, hAm, hAb]
  have hcollect : collectLayers env key hf0.numColumns [A, B] =
      ([⟨B, kB, 1⟩, ⟨A, kA, 0⟩], [],
       ((if decide (kB ≠ env.mapResolution key hf0.numColumns B.tileSize) = true
         then 1 else 0) +
        (if decide (kA ≠ env.mapResolution key hf0.numColumns A.tileSize) = true
         then 1 else 0))) := by
    show collectAux env.mapResolution key hf0.numColumns [(0, A), (1, B)] = _
    rw [collectAux, collectAux, collectAux, hconsA, hconsB]
    simp [hAo, hBo, Nat.add_comm]
  have hnfb : ¬((2 : Nat) + 0 =
      ((if decide (kB ≠ env.mapResolution key hf0.numColumns B.tileSize) = true
        then 1 else 0) +
       (if decide (kA ≠ env.mapResolution key hf0.numColumns A.tileSize) = true
        then 1 else 0))) := by
    rcases hnot with h | h <;> simp [h] <;> split <;> omega
  have hwin := scanContenders_first_win key.lod (pixelX ext hf0.numColumns c)
      (pixelY ext hf0.numRows r) [] [⟨A, kA, 0⟩] ⟨B, kB, 1⟩ gB kB e
      (fun ld2 h2 => absurd h2 (List.not_mem_nil _))
      (fetchWalk_direct B kB gB hBl hBc) hBs hne
  have hfast : fastPathResult [⟨B, kB, 1⟩, ⟨A, kA, 0⟩] []
      hf0.numColumns hf0.numRows = none := by
    simp [fastPathResult]
  simp only [populateHeightFieldAndNormalMap, hcollect]
  rw [if_neg (by simp)]
  rw [if_neg (by simpa using hnfb)]
  rw [hfast]
  simp only [List.nil_append] at hwin
  simp only [Bool.false_eq_true, if_false, resolveInvalidHeights, generalPixel,
    applyOffsets, hwin, hc, hr, and_self, if_true]
  simp [hne]

/-- C2 witness: two concrete overlapping base layers; the higher-priority
layer's sample (7) wins the pixel. -/
theorem C2_priority_first_win_witness :
    (∀ (keyLod : Nat) (x y : ℚ) (l1 l2 : List LayerData) (ld : LayerData)
        (g : GeoHF) (fk : TileKey) (ev : Elev),
        (∀ ld2 ∈ l1, resolvesAt x y ld2 = false) →
        fetchWalk ld.layer ld.key = some (g, fk) →
        g.sample x y = some ev → ev ≠ NO_DATA_VALUE →
        (scanContenders keyLod x y (l1 ++ ld :: l2)).1 =
          some ((ld.index : Int), ev, (keyLod : Int) - (fk.lod : Int))) ∧
    (populateHeightFieldAndNormalMap ⟨fun k _ _ => k, fun _ _ => 0⟩
      [⟨true, true, false, 0, 17, fun k => some k, fun _ => true,
        fun _ => some ⟨⟨3, 3, fun _ _ => 3⟩, fun _ _ => some 3⟩⟩,
       ⟨true, true, false, 0, 17, fun k => some k, fun _ => true,
        fun _ => some ⟨⟨3, 3, fun _ _ => 7⟩, fun _ _ => some 7⟩⟩]
      ⟨2, 2, fun _ _ => NO_DATA_VALUE⟩ ⟨5, 0, 0⟩ ⟨0, 0, 1, 1⟩ false).height 0 0
      = 7 :=
  C2_priority_first_win ⟨fun k _ _ => k, fun _ _ => 0⟩
    ⟨true, true, false, 0, 17, fun k => some k, fun _ => true,
      fun _ => some ⟨⟨3, 3, fun _ _ => 3⟩, fun _ _ => some 3⟩⟩
    ⟨true, true, false, 0, 17, fun k => some k, fun _ => true,
      fun _ => some ⟨⟨3, 3, fun _ _ => 7⟩, fun _ _ => some 7⟩⟩
    ⟨2, 2, fun _ _ => NO_DATA_VALUE⟩ ⟨5, 0, 0⟩ ⟨0, 0, 1, 1⟩
    ⟨5, 0, 0⟩ ⟨5, 0, 0⟩ ⟨⟨3, 3, fun _ _ => 7⟩, fun _ _ => some 7⟩ 7 0 0
    rfl rfl rfl rfl rfl rfl (by decide) (by decide) rfl rfl (Or.inl rfl)
    rfl rfl rfl (by decide) (by decide) (by decide)

/-- C1 counterexample: one qualifying, non-fallback offset layer whose tile
is available but all of whose samples are the no-data sentinel.  The
compositor returns `realData = true` (the source marks real data as soon as
a non-suppressed offset's heightfield is available, before and regardless of
its sample), yet no output pixel was filled from any source tile: every
pixel still carried the sentinel after sampling and was hole-filled to the
fill value 0.  This refutes "the returned boolean is true iff at least one
output pixel was filled from a source tile that was not fallback data". -/
theorem C1_realdata_counterexample :
    (populateHeightFieldAndNormalMap ⟨fun k _ _ => k, fun _ _ => 0⟩
      [⟨true, true, true, 0, 17, fun k => some k, fun _ => true,
        fun _ => some ⟨⟨2, 2, fun _ _ => 0⟩, fun _ _ => some NO_DATA_VALUE⟩⟩]
      ⟨2, 2, fun _ _ => NO_DATA_VALUE⟩ ⟨5, 0, 0⟩ ⟨0, 0, 1, 1⟩ false).realData
      = true ∧
    (populateHeightFieldAndNormalMap ⟨fun k _ _ => k, fun _ _ => 0⟩
      [⟨true, true, true, 0, 17, fun k => some k, fun _ => true,
        fun _ => some ⟨⟨2, 2, fun _ _ => 0⟩, fun _ _ => some NO_DATA_VALUE⟩⟩]
      ⟨2, 2, fun _ _ => NO_DATA_VALUE⟩ ⟨5, 0, 0⟩ ⟨0, 0, 1, 1⟩ false).height 0 0
      = 0 ∧
    (populateHeightFieldAndNormalMap ⟨fun k _ _ => k, fun _ _ => 0⟩
      [⟨true, true, true, 0, 17, fun k => some k, fun _ => true,
        fun _ => some ⟨⟨2, 2, fun _ _ => 0⟩, fun _ _ => some NO_DATA_VALUE⟩⟩]
      ⟨2, 2, fun _ _ => NO_DATA_VALUE⟩ ⟨5, 0, 0⟩ ⟨0, 0, 1, 1⟩ false).height 0 1
      = 0 ∧
    (populateHeightFieldAndNormalMap ⟨fun k _ _ => k, fun _ _ => 0⟩
      [⟨true, true, true, 0, 17, fun k => some k, fun _ => true,
        fun _ => some ⟨⟨2, 2, fun _ _ => 0⟩, fun _ _ => some NO_DATA_VALUE⟩⟩]
      ⟨2, 2, fun _ _ => NO_DATA_VALUE⟩ ⟨5, 0, 0⟩ ⟨0, 0, 1, 1⟩ false).height 1 0
      = 0 ∧
    (populateHeightFieldAndNormalMap ⟨fun k _ _ => k, fun _ _ => 0⟩
      [⟨true, true, true, 0, 17, fun k => some k, fun _ => true,
        fun _ => some ⟨⟨2, 2, fun _ _ => 0⟩, fun _ _ => some NO_DATA_VALUE⟩⟩]
      ⟨2, 2, fun _ _ => NO_DATA_VALUE⟩ ⟨5, 0, 0⟩ ⟨0, 0, 1, 1⟩ false).height 1 1
      = 0 :=
  ⟨rfl, rfl, rfl, rfl, rfl⟩

/-- C1 (amended): in a composite call that passes the early-abort checks,
(1) whenever the single-contender fast path is reachable (exactly one
contender, no offsets), that contender is necessarily non-fallback — this
part of the claim holds; and (2) on the general path the returned
"real data present" flag is true iff at some in-range pixel either a
contender whose heightfield is available without parent fallback was
examined (all higher-priority contenders failing to resolve that pixel),
regardless of its sample value, or a non-suppressed offset layer's
heightfield was available, regardless of its fallback status and of whether
its sample contributed — availability, not "a pixel was filled from
non-fallback data", is what the code tracks. -/
theorem C1_realdata_amended (env : CompositorEnv) (layers : List ELayer)
    (hf0 : HF) (key : TileKey) (ext : Extent)
    (hbail1 : ¬((collectLayers env key hf0.numColumns layers).1.isEmpty = true ∧
               (collectLayers env key hf0.numColumns layers).2.1.isEmpty = true))
    (hbail2 : ¬((collectLayers env key hf0.numColumns layers).1.length +
              (collectLayers env key hf0.numColumns layers).2.1.length =
              (collectLayers env key hf0.numColumns layers).2.2)) :
    (∀ ld, (collectLayers env key hf0.numColumns layers).1 = [ld] →
       (collectLayers env key hf0.numColumns layers).2.1 = [] →
       ld.key = env.mapResolution key hf0.numColumns ld.layer.tileSize) ∧
    (fastPathResult (collectLayers env key hf0.numColumns layers).1
        (collectLayers env key hf0.numColumns layers).2.1
        hf0.numColumns hf0.numRows = none →
      ((populateHeightFieldAndNormalMap env layers hf0 key ext false).realData
          = true ↔
        ∃ c < hf0.numColumns, ∃ r < hf0.numRows,
          (∃ l1 ld l2,
             (collectLayers env key hf0.numColumns layers).1 = l1 ++ ld :: l2 ∧
             (∀ ld2 ∈ l1,
               resolvesAt (pixelX ext hf0.numColumns c)
                 (pixelY ext hf0.numRows r) ld2 = false) ∧
             availableNonFallback ld = true) ∨
          (∃ ld ∈ (collectLayers env key hf0.numColumns layers).2.1,
             ¬(0 ≤ resolvedIndexAt key.lod (pixelX ext hf0.numColumns c)
                   (pixelY ext hf0.numRows r)
                   (collectLayers env key hf0.numColumns layers).1 ∧
               (ld.index : Int) <
                 resolvedIndexAt key.lod (pixelX ext hf0.numColumns c)
                   (pixelY ext hf0.numRows r)
                   (collectLayers env key hf0.numColumns layers).1) ∧
             (ld.layer.createHF ld.key).isSome = true))) := by
  constructor
  · intro ld hq1 hq2
    by_contra hfb
    have hfb2 : isFallbackLD env key hf0.numColumns ld = true := by
      simpa [isFallbackLD] using hfb
    have hcount := collectAux_fallback_count env key hf0.numColumns layers.enum
    have hcl : collectAux env.mapResolution key hf0.numColumns layers.enum =
        collectLayers env key hf0.numColumns layers := rfl
    rw [hcl, hq1, hq2] at hcount
    rw [hq1, hq2] at hbail2
    simp [List.countP_cons, List.countP_nil, hfb2] at hcount
    simp [hcount] at hbail2
  · intro hfast
    simp only [populateHeightFieldAndNormalMap]
    rw [if_neg hbail1, if_neg hbail2, hfast]
    simp only [Bool.false_eq_true, if_false]
    simp only [generalPixel, List.any_eq_true, List.mem_range, Bool.or_eq_true,
      scanContenders_mark_iff, applyOffsets_mark_iff]

/-- C1 witness for the amended claim: the single sentinel-valued offset
configuration of the counterexample satisfies the early-abort hypotheses and
instantiates the amended characterization. -/
theorem C1_realdata_amended_witness :
    (∀ ld, (collectLayers ⟨fun k _ _ => k, fun _ _ => 0⟩ ⟨5, 0, 0⟩ 2
        [⟨true, true, true, 0, 17, fun k => some k, fun _ => true,
          fun _ => some ⟨⟨2, 2, fun _ _ => 0⟩, fun _ _ => some NO_DATA_VALUE⟩⟩]).1
        = [ld] →
       (collectLayers ⟨fun k _ _ => k, fun _ _ => 0⟩ ⟨5, 0, 0⟩ 2
        [⟨true, true, true, 0, 17, fun k => some k, fun _ => true,
          fun _ => some ⟨⟨2, 2, fun _ _ => 0⟩, fun _ _ => some NO_DATA_VALUE⟩⟩]).2.1
        = [] →
       ld.key = (⟨fun k _ _ => k, fun _ _ => 0⟩ :
         CompositorEnv).mapResolution ⟨5, 0, 0⟩ 2 ld.layer.tileSize) ∧
    (fastPathResult
        (collectLayers ⟨fun k _ _ => k, fun _ _ => 0⟩ ⟨5, 0, 0⟩ 2
          [⟨true, true, true, 0, 17, fun k => some k, fun _ => true,
            fun _ => some ⟨⟨2, 2, fun _ _ => 0⟩, fun _ _ => some NO_DATA_VALUE⟩⟩]).1
        (collectLayers ⟨fun k _ _ => k, fun _ _ => 0⟩ ⟨5, 0, 0⟩ 2
          [⟨true, true, true, 0, 17, fun k => some k, fun _ => true,
            fun _ => some ⟨⟨2, 2, fun _ _ => 0⟩, fun _ _ => some NO_DATA_VALUE⟩⟩]).2.1
        2 2 = none →
      ((populateHeightFieldAndNormalMap ⟨fun k _ _ => k, fun _ _ => 0⟩
          [⟨true, true, true, 0, 17, fun k => some k, fun _ => true,
            fun _ => some ⟨⟨2, 2, fun _ _ => 0⟩, fun _ _ => some NO_DATA_VALUE⟩⟩]
          ⟨2, 2, fun _ _ => NO_DATA_VALUE⟩ ⟨5, 0, 0⟩ ⟨0, 0, 1, 1⟩ false).realData
          = true ↔
        ∃ c < 2, ∃ r < 2,
          (∃ l1 ld l2,
             (collectLayers ⟨fun k _ _ => k, fun _ _ => 0⟩ ⟨5, 0, 0⟩ 2
               [⟨true, true, true, 0, 17, fun k => some k, fun _ => true,
                 fun _ => some ⟨⟨2, 2, fun _ _ => 0⟩,
                   fun _ _ => some NO_DATA_VALUE⟩⟩]).1 = l1 ++ ld :: l2 ∧
             (∀ ld2 ∈ l1,
               resolvesAt (pixelX ⟨0, 0, 1, 1⟩ 2 c)
                 (pixelY ⟨0, 0, 1, 1⟩ 2 r) ld2 = false) ∧
             availableNonFallback ld = true) ∨
          (∃ ld ∈ (collectLayers ⟨fun k _ _ => k, fun _ _ => 0⟩ ⟨5, 0, 0⟩ 2
               [⟨true, true, true, 0, 17, fun k => some k, fun _ => true,
                 fun _ => some ⟨⟨2, 2, fun _ _ => 0⟩,
                   fun _ _ => some NO_DATA_VALUE⟩⟩]).2.1,
             ¬(0 ≤ resolvedIndexAt 5 (pixelX ⟨0, 0, 1, 1⟩ 2 c)
                   (pixelY ⟨0, 0, 1, 1⟩ 2 r)
                   (collectLayers ⟨fun k _ _ => k, fun _ _ => 0⟩ ⟨5, 0, 0⟩ 2
                     [⟨true, true, true, 0, 17, fun k => some k, fun _ => true,
                       fun _ => some ⟨⟨2, 2, fun _ _ => 0⟩,
                         fun _ _ => some NO_DATA_VALUE⟩⟩]).1 ∧
               (ld.index : Int) <
                 resolvedIndexAt 5 (pixelX ⟨0, 0, 1, 1⟩ 2 c)
                   (pixelY ⟨0, 0, 1, 1⟩ 2 r)
                   (collectLayers ⟨fun k _ _ => k, fun _ _ => 0⟩ ⟨5, 0, 0⟩ 2
                     [⟨true, true, true, 0, 17, fun k => some k, fun _ => true,
                       fun _ => some ⟨⟨2, 2, fun _ _ => 0⟩,
                         fun _ _ => some NO_DATA_VALUE⟩⟩]).1) ∧
             (ld.layer.createHF ld.key).isSome = true))) :=
  C1_realdata_amended ⟨fun k _ _ => k, fun _ _ => 0⟩
    [⟨true, true, true, 0, 17, fun k => some k, fun _ => true,
      fun _ => some ⟨⟨2, 2, fun _ _ => 0⟩, fun _ _ => some NO_DATA_VALUE⟩⟩]
    ⟨2, 2, fun _ _ => NO_DATA_VALUE⟩ ⟨5, 0, 0⟩ ⟨0, 0, 1, 1⟩
    (by decide) (by decide)

theorem foldlMax_acc_le (f : AGeo → Nat) (l : List AGeo) (a : Nat) :
    a ≤ l.foldl (fun w g2 => if w < f g2 then f g2 else w) a := by
  induction l generalizing a with
  | nil => exact Nat.le_refl a
  | cons b l ih =>
    refine Nat.le_trans ?_ (ih (if a < f b then f b else a))
    split <;> omega

theorem foldlMax_ge (f : AGeo → Nat) :
    ∀ (l : List AGeo) (a : Nat) (g : AGeo), g ∈ l →
      f g ≤ l.foldl (fun w g2 => if w < f g2 then f g2 else w) a := by
  intro l
  induction l with
  | nil =>
    intro a g hg
    cases hg
  | cons b l ih =>
    intro a g hg
    rcases List.mem_cons.mp hg with rfl | hg2
    · exact Nat.le_trans
        (show f g ≤ if a < f g then f g else a by split <;> omega)
        (foldlMax_acc_le f l _)
    · exact ih _ g hg2

theorem foldlMax_hit (f : AGeo → Nat) :
    ∀ (l : List AGeo) (a : Nat),
      l.foldl (fun w g2 => if w < f g2 then f g2 else w) a = a ∨
      ∃ g ∈ l, l.foldl (fun w g2 => if w < f g2 then f g2 else w) a = f g := by
  intro l
  induction l with
  | nil =>
    intro a
    exact Or.inl rfl
  | cons b l ih =>
    intro a
    rw [List.foldl_cons]
    rcases ih (if a < f b then f b else a) with h | ⟨g, hg, h⟩
    · rw [h]
      by_cases hab : a < f b
      · exact Or.inr ⟨b, List.mem_cons_self _ _, by rw [if_pos hab]⟩
      · exact Or.inl (by rw [if_neg hab])
    · exact Or.inr ⟨g, List.mem_cons_of_mem _ hg, h⟩

theorem maxCols_ge (hfs : List AGeo) (g : AGeo) (hg : g ∈ hfs) :
    g.cols ≤ maxCols hfs :=
  foldlMax_ge (fun g2 => g2.cols) hfs 0 g hg

theorem maxRows_ge (hfs : List AGeo) (g : AGeo) (hg : g ∈ hfs) :
    g.rows ≤ maxRows hfs :=
  foldlMax_ge (fun g2 => g2.rows) hfs 0 g hg

theorem maxCols_hit (hfs : List AGeo) (hne : hfs ≠ []) :
    ∃ g ∈ hfs, maxCols hfs = g.cols := by
  rcases foldlMax_hit (fun g2 => g2.cols) hfs 0 with h | ⟨g, hg, h⟩
  · obtain ⟨g, hg⟩ := List.exists_mem_of_ne_nil hfs hne
    refine ⟨g, hg, ?_⟩
    have h1 := maxCols_ge hfs g hg
    have h2 : maxCols hfs = 0 := h
    omega
  · exact ⟨g, hg, h⟩

theorem maxRows_hit (hfs : List AGeo) (hne : hfs ≠ []) :
    ∃ g ∈ hfs, maxRows hfs = g.rows := by
  rcases foldlMax_hit (fun g2 => g2.rows) hfs 0 with h | ⟨g, hg, h⟩
  · obtain ⟨g, hg⟩ := List.exists_mem_of_ne_nil hfs hne
    refine ⟨g, hg, ?_⟩
    have h1 := maxRows_ge hfs g hg
    have h2 : maxRows hfs = 0 := h
    omega
  · exact ⟨g, hg, h⟩

theorem sortTiles_perm (hfs : List AGeo) : (sortTiles hfs).Perm hfs :=
  List.mergeSort_perm hfs _

theorem sortTiles_sorted (hfs : List AGeo) :
    (sortTiles hfs).Pairwise fun a b => a.res ≤ b.res := by
  have htrans : ∀ a b c : AGeo, decide (a.res ≤ b.res) = true →
      decide (b.res ≤ c.res) = true → decide (a.res ≤ c.res) = true := by
    intro a b c hab hbc
    simp only [decide_eq_true_iff] at *
    exact le_trans hab hbc
  have htotal : ∀ a b : AGeo,
      (decide (a.res ≤ b.res) || decide (b.res ≤ a.res)) = true := by
    intro a b
    simp only [Bool.or_eq_true, decide_eq_true_iff]
    exact le_total _ _
  have h := List.sorted_mergeSort htrans htotal hfs
  exact h.imp fun hab => by simpa using hab

theorem findSome?_first_hit {α β : Type} (f : α → Option β) :
    ∀ (l1 : List α) (g : α) (l2 : List α) (en : β),
      (∀ g2 ∈ l1, f g2 = none) → f g = some en →
      (l1 ++ g :: l2).findSome? f = some en := by
  intro l1
  induction l1 with
  | nil =>
    intro g l2 en _ hg
    simp [List.findSome?_cons, hg]
  | cons a l1 ih =>
    intro g l2 en h1 hg
    have ha : f a = none := h1 a (List.mem_cons_self _ _)
    simp [List.findSome?_cons, ha,
      ih g l2 en (fun g2 hm => h1 g2 (List.mem_cons_of_mem _ hm)) hg]

/-- C7: the assembler (1) outputs a grid sized by the maximum width and
height over the fetched native tiles — (2),(3),(4) the output dimensions
bound every tile's and are attained by some tile's; (5),(6) the tile list is
sorted by resolution, finest (smallest) first, as a permutation of the
fetched tiles; and (7) each output pixel carries the sample-and-normal of
the first tile in sorted order whose query at the pixel's world coordinate
yields data (no blending), or the no-data sentinel with the up-facing
placeholder normal `(0,0,1)` when no tile yields data. -/
theorem C7_assemble_mosaic (legal : TileKey → Bool)
    (create : TileKey → Option AGeo) (tiles : List TileKey) (ext : Extent)
    (hne : (fetchedTiles legal create tiles).isEmpty = false) :
    (assembleHeightField legal create tiles ext false =
      some ((maxCols (fetchedTiles legal create tiles),
             maxRows (fetchedTiles legal create tiles)),
            assemblePixel (fetchedTiles legal create tiles) ext
              (maxCols (fetchedTiles legal create tiles))
              (maxRows (fetchedTiles legal create tiles)))) ∧
    (∀ g ∈ fetchedTiles legal create tiles,
       g.cols ≤ maxCols (fetchedTiles legal create tiles) ∧
       g.rows ≤ maxRows (fetchedTiles legal create tiles)) ∧
    (∃ g ∈ fetchedTiles legal create tiles,
       maxCols (fetchedTiles legal create tiles) = g.cols) ∧
    (∃ g ∈ fetchedTiles legal create tiles,
       maxRows (fetchedTiles legal create tiles) = g.rows) ∧
    (sortTiles (fetchedTiles legal create tiles)).Perm
      (fetchedTiles legal create tiles) ∧
    (sortTiles (fetchedTiles legal create tiles)).Pairwise
      (fun a b => a.res ≤ b.res) ∧
    (∀ width height c r,
      ((∀ g ∈ sortTiles (fetchedTiles legal create tiles),
          g.sampleEN (pixelX ext width c) (pixelY ext height r) = none) →
        assemblePixel (fetchedTiles legal create tiles) ext width height c r =
          (NO_DATA_VALUE, (0, 0, 1))) ∧
      (∀ pre g post en,
        sortTiles (fetchedTiles legal create tiles) = pre ++ g :: post →
        (∀ g2 ∈ pre,
          g2.sampleEN (pixelX ext width c) (pixelY ext height r) = none) →
        g.sampleEN (pixelX ext width c) (pixelY ext height r) = some en →
        assemblePixel (fetchedTiles legal create tiles) ext width height c r
          = en)) := by
  have hnil : fetchedTiles legal create tiles ≠ [] := by
    intro h
    rw [h] at hne
    exact absurd hne (by simp)
  refine ⟨?_, ?_, maxCols_hit _ hnil, maxRows_hit _ hnil,
    sortTiles_perm _, sortTiles_sorted _, ?_⟩
  · simp [assembleHeightField, hne]
  · intro g hg
    exact ⟨maxCols_ge _ g hg, maxRows_ge _ g hg⟩
  · intro width height c r
    constructor
    · intro hall
      simp [assemblePixel, List.findSome?_eq_none_iff.mpr hall]
    · intro pre g post en hsort hpre hg
      rw [assemblePixel, hsort, findSome?_first_hit _ pre g post en hpre hg]

/-- C7 witness: one fetched tile; the assembler returns the mosaic sized and
sampled as the claim theorem states. -/
theorem C7_assemble_mosaic_witness :
    assembleHeightField (fun _ => true)
        (fun _ => some ⟨2, 2, 1, fun _ _ => some (5, (0, 0, 1))⟩)
        [⟨0, 0, 0⟩] ⟨0, 0, 1, 1⟩ false =
      some ((maxCols (fetchedTiles (fun _ => true)
               (fun _ => some ⟨2, 2, 1, fun _ _ => some (5, (0, 0, 1))⟩)
               [⟨0, 0, 0⟩]),
             maxRows (fetchedTiles (fun _ => true)
               (fun _ => some ⟨2, 2, 1, fun _ _ => some (5, (0, 0, 1))⟩)
               [⟨0, 0, 0⟩])),
            assemblePixel (fetchedTiles (fun _ => true)
               (fun _ => some ⟨2, 2, 1, fun _ _ => some (5, (0, 0, 1))⟩)
               [⟨0, 0, 0⟩]) ⟨0, 0, 1, 1⟩
              (maxCols (fetchedTiles (fun _ => true)
                 (fun _ => some ⟨2, 2, 1, fun _ _ => some (5, (0, 0, 1))⟩)
                 [⟨0, 0, 0⟩]))
              (maxRows (fetchedTiles (fun _ => true)
                 (fun _ => some ⟨2, 2, 1, fun _ _ => some (5, (0, 0, 1))⟩)
                 [⟨0, 0, 0⟩]))) :=
  (C7_assemble_mosaic (fun _ => true)
    (fun _ => some ⟨2, 2, 1, fun _ _ => some (5, (0, 0, 1))⟩)
    [⟨0, 0, 0⟩] ⟨0, 0, 1, 1⟩ rfl).1

theorem vec3_eq (a b : Vec3Q) (h1 : a.1 = b.1) (h2 : a.2.1 = b.2.1)
    (h3 : a.2.2 = b.2.2) : a = b := by
  obtain ⟨a1, a2, a3⟩ := a
  obtain ⟨b1, b2, b3⟩ := b
  simp_all

theorem getNormal_z_pos (ext : Extent) (hgt : Nat → Nat → ℚ) (w h : Nat)
    (s t : Nat) (hw : 2 ≤ w) (hh : 2 ≤ h) (hs : s < w) (ht : t < h)
    (hx : ext.xmin < ext.xmax) (hy : ext.ymin < ext.ymax) :
    0 < (getNormal ext hgt w h s t).2.2 := by
  have hw2 : (2 : ℚ) ≤ (w : ℚ) := by exact_mod_cast hw
  have hh2 : (2 : ℚ) ≤ (h : ℚ) := by exact_mod_cast hh
  have hdx : 0 < (ext.xmax - ext.xmin) / ((w : ℚ) - 1) :=
    div_pos (by linarith) (by linarith)
  have hdy : 0 < (ext.ymax - ext.ymin) / ((h : ℚ) - 1) :=
    div_pos (by linarith) (by linarith)
  simp only [getNormal]
  split_ifs with h1 h2 h3 h4 <;>
    simp only [vcross, vsub] <;>
    first
      | (exfalso; omega)
      | nlinarith [mul_pos hdx hdy]

theorem conic2_pos (w1 w2 z1 z2 : ℚ) (hw1 : 0 ≤ w1) (hw2 : 0 ≤ w2)
    (hsum : 0 < w1 + w2) (h1 : 0 < z1) (h2 : 0 < z2) :
    0 < w1 * z1 + w2 * z2 := by
  rcases lt_or_eq_of_le hw1 with hp | hp
  · nlinarith [mul_pos hp h1, mul_nonneg hw2 h2.le]
  · rw [← hp] at hsum ⊢
    nlinarith [mul_pos hsum h2]

theorem normalize_unit (x y z : ℝ) (hz : 0 < z) :
    Real.sqrt ((x / Real.sqrt (x ^ 2 + y ^ 2 + z ^ 2)) ^ 2 +
      (y / Real.sqrt (x ^ 2 + y ^ 2 + z ^ 2)) ^ 2 +
      (z / Real.sqrt (x ^ 2 + y ^ 2 + z ^ 2)) ^ 2) = 1 := by
  have hz2 : 0 < z ^ 2 := pow_pos hz 2
  have hS : 0 < x ^ 2 + y ^ 2 + z ^ 2 := by
    nlinarith [sq_nonneg x, sq_nonneg y]
  have hn : 0 < Real.sqrt (x ^ 2 + y ^ 2 + z ^ 2) := Real.sqrt_pos.mpr hS
  have hsq : Real.sqrt (x ^ 2 + y ^ 2 + z ^ 2) ^ 2 = x ^ 2 + y ^ 2 + z ^ 2 :=
    Real.sq_sqrt hS.le
  have key : (x / Real.sqrt (x ^ 2 + y ^ 2 + z ^ 2)) ^ 2 +
      (y / Real.sqrt (x ^ 2 + y ^ 2 + z ^ 2)) ^ 2 +
      (z / Real.sqrt (x ^ 2 + y ^ 2 + z ^ 2)) ^ 2 = 1 := by
    rw [div_pow, div_pow, div_pow, hsq]
    field_simp
  rw [key, Real.sqrt_one]

theorem conic4_pos (wa wb wc wd za zb zc zd : ℚ)
    (ha : 0 ≤ wa) (hb : 0 ≤ wb) (hc : 0 ≤ wc) (hd : 0 ≤ wd)
    (hsum : 0 < wa + wb + wc + wd)
    (hza : 0 < za) (hzb : 0 < zb) (hzc : 0 < zc) (hzd : 0 < zd) :
    0 < wa * za + wb * zb + wc * zc + wd * zd := by
  have h1 : 0 < wa + wb ∨ 0 < wc + wd := by
    by_contra hcon
    push_neg at hcon
    obtain ⟨ha2, hb2⟩ := hcon
    linarith
  rcases h1 with h1 | h1
  · have := conic2_pos wa wb za zb ha hb h1 hza hzb
    have hcz := mul_nonneg hc hzc.le
    have hdz := mul_nonneg hd hzd.le
    linarith
  · have := conic2_pos wc wd zc zd hc hd h1 hzc hzd
    have haz := mul_nonneg ha hza.le
    have hbz := mul_nonneg hb hzb.le
    linarith

set_option maxHeartbeats 1600000 in
theorem interpolatedNormal_comb (ext : Extent) (hgt : Nat → Nat → ℚ)
    (w h : Nat) (step : Nat) (s t : Nat)
    (hstep : 2 ≤ step) (hw : 2 ≤ w) (hh : 2 ≤ h) (hs : s < w) (ht : t < h) :
    ∃ s0 s1 t0 t1 : Nat, ∃ wa wb wc wd : ℚ,
      s0 % step = 0 ∧ (s1 % step = 0 ∨ s1 = w - 1) ∧
      t0 % step = 0 ∧ (t1 % step = 0 ∨ t1 = h - 1) ∧
      s0 ≤ s ∧ s ≤ s1 ∧ s1 ≤ s0 + step ∧ s1 < w ∧
      t0 ≤ t ∧ t ≤ t1 ∧ t1 ≤ t0 + step ∧ t1 < h ∧
      0 ≤ wa ∧ 0 ≤ wb ∧ 0 ≤ wc ∧ 0 ≤ wd ∧ 0 < wa + wb + wc + wd ∧
      interpolatedNormal ext hgt w h step s t =
        vadd (vadd (vsmul wa (getNormal ext hgt w h s0 t0))
                   (vsmul wb (getNormal ext hgt w h s1 t0)))
             (vadd (vsmul wc (getNormal ext hgt w h s0 t1))
                   (vsmul wd (getNormal ext hgt w h s1 t1))) := by
  have hstep0 : 0 < step := by omega
  have hsmlt : s % step < step := Nat.mod_lt _ hstep0
  have htmlt : t % step < step := Nat.mod_lt _ hstep0
  have hsmle : s % step ≤ s := Nat.mod_le _ _
  have htmle : t % step ≤ t := Nat.mod_le _ _
  have hs0mod : (s - s % step) % step = 0 := by
    obtain ⟨q, hq⟩ : ∃ q, s - s % step = step * q :=
      ⟨s / step, by
        have := Nat.div_add_mod s step
        omega⟩
    rw [hq]
    exact Nat.mul_mod_right _ _
  have ht0mod : (t - t % step) % step = 0 := by
    obtain ⟨q, hq⟩ : ∃ q, t - t % step = step * q :=
      ⟨t / step, by
        have := Nat.div_add_mod t step
        omega⟩
    rw [hq]
    exact Nat.mul_mod_right _ _
  by_cases hsm : s % step = 0 <;> by_cases htm : t % step = 0
  · -- the pixel lies on the coarse grid in both axes: direct query
    refine ⟨s, s, t, t, 1, 0, 0, 0, by simpa [hsm] using hs0mod, Or.inl ?_,
      by simpa [htm] using ht0mod, Or.inl ?_, le_refl s, le_refl s, by omega,
      hs, le_refl t, le_refl t, by omega, ht, by norm_num, le_refl 0,
      le_refl 0, le_refl 0, by norm_num, ?_⟩
    · simpa [hsm] using hs0mod
    · simpa [htm] using ht0mod
    · have hval : interpolatedNormal ext hgt w h step s t =
          getNormal ext hgt w h s t := by
        simp [interpolatedNormal, hsm, htm]
      rw [hval]
      refine vec3_eq _ _ ?_ ?_ ?_ <;> simp [vadd, vsmul]
  · -- on-grid column, off-grid row: linear interpolation along t
    have ht0lt : t - t % step < t := by omega
    have htt1 : t ≤ min (t - t % step + step) (h - 1) :=
      le_min (by omega) (by omega)
    have ht0t1 : t - t % step < min (t - t % step + step) (h - 1) :=
      lt_of_lt_of_le ht0lt htt1
    have ht1prop : min (t - t % step + step) (h - 1) % step = 0 ∨
        min (t - t % step + step) (h - 1) = h - 1 := by
      by_cases hc2 : t - t % step + step ≤ h - 1
      · left
        rw [min_eq_left hc2, Nat.add_mod_right, ht0mod]
      · right
        rw [min_eq_right (by omega)]
    refine ⟨s, s, t - t % step, min (t - t % step + step) (h - 1),
      (((min (t - t % step + step) (h - 1) : Nat) : ℚ) - (t : ℚ)), 0,
      ((t : ℚ) - ((t - t % step : Nat) : ℚ)), 0,
      by simpa [hsm] using hs0mod, Or.inl (by simpa [hsm] using hs0mod),
      ht0mod, ht1prop, le_refl s, le_refl s, by omega, hs,
      by omega, htt1, min_le_left _ _, by
        have := min_le_right (t - t % step + step) (h - 1)
        omega,
      ?_, le_refl 0, ?_, le_refl 0, ?_, ?_⟩
    · have h1 : (t : ℚ) ≤ ((min (t - t % step + step) (h - 1) : Nat) : ℚ) :=
        Nat.cast_le.mpr htt1
      linarith
    · have h1 : ((t - t % step : Nat) : ℚ) ≤ (t : ℚ) :=
        Nat.cast_le.mpr (Nat.sub_le t (t % step))
      linarith
    · have h1 : ((t - t % step : Nat) : ℚ) <
          ((min (t - t % step + step) (h - 1) : Nat) : ℚ) :=
        Nat.cast_lt.mpr ht0t1
      linarith
    · have hval : interpolatedNormal ext hgt w h step s t =
          vadd (vsmul (((min (t - t % step + step) (h - 1) : Nat) : ℚ) -
                  (t : ℚ))
                  (getNormal ext hgt w h s (t - t % step)))
               (vsmul ((t : ℚ) - ((t - t % step : Nat) : ℚ))
                  (getNormal ext hgt w h s
                    (min (t - t % step + step) (h - 1)))) := by
        simp [interpolatedNormal, hsm, htm, Nat.ne_of_lt ht0t1]
      rw [hval]
      refine vec3_eq _ _ ?_ ?_ ?_ <;> simp [vadd, vsmul]
  · -- off-grid column, on-grid row: linear interpolation along s
    have hs0lt : s - s % step < s := by omega
    have hss1 : s ≤ min (s - s % step + step) (w - 1) :=
      le_min (by omega) (by omega)
    have hs0s1 : s - s % step < min (s - s % step + step) (w - 1) :=
      lt_of_lt_of_le hs0lt hss1
    have hs1prop : min (s - s % step + step) (w - 1) % step = 0 ∨
        min (s - s % step + step) (w - 1) = w - 1 := by
      by_cases hc2 : s - s % step + step ≤ w - 1
      · left
        rw [min_eq_left hc2, Nat.add_mod_right, hs0mod]
      · right
        rw [min_eq_right (by omega)]
    refine ⟨s - s % step, min (s - s % step + step) (w - 1), t, t,
      (((min (s - s % step + step) (w - 1) : Nat) : ℚ) - (s : ℚ)),
      ((s : ℚ) - ((s - s % step : Nat) : ℚ)), 0, 0,
      hs0mod, hs1prop, by simpa [htm] using ht0mod,
      Or.inl (by simpa [htm] using ht0mod),
      by omega, hss1, min_le_left _ _, by
        have := min_le_right (s - s % step + step) (w - 1)
        omega,
      le_refl t, le_refl t, by omega, ht,
      ?_, ?_, le_refl 0, le_refl 0, ?_, ?_⟩
    · have h1 : (s : ℚ) ≤ ((min (s - s % step + step) (w - 1) : Nat) : ℚ) :=
        Nat.cast_le.mpr hss1
      linarith
    · have h1 : ((s - s % step : Nat) : ℚ) ≤ (s : ℚ) :=
        Nat.cast_le.mpr (Nat.sub_le s (s % step))
      linarith
    · have h1 : ((s - s % step : Nat) : ℚ) <
          ((min (s - s % step + step) (w - 1) : Nat) : ℚ) :=
        Nat.cast_lt.mpr hs0s1
      linarith
    · have hne1 : ¬(s - s % step = min (s - s % step + step) (w - 1)) :=
        Nat.ne_of_lt hs0s1
      have hval : interpolatedNormal ext hgt w h step s t =
          vadd (vsmul (((min (s - s % step + step) (w - 1) : Nat) : ℚ) -
                  (s : ℚ))
                  (getNormal ext hgt w h (s - s % step) t))
               (vsmul ((s : ℚ) - ((s - s % step : Nat) : ℚ))
                  (getNormal ext hgt w h
                    (min (s - s % step + step) (w - 1)) t)) := by
        simp [interpolatedNormal, hsm, htm, hne1]
      rw [hval]
      refine vec3_eq _ _ ?_ ?_ ?_ <;> simp [vadd, vsmul]
  · -- off-grid in both axes: bilinear interpolation
    have hs0lt : s - s % step < s := by omega
    have hss1 : s ≤ min (s - s % step + step) (w - 1) :=
      le_min (by omega) (by omega)
    have hs0s1 : s - s % step < min (s - s % step + step) (w - 1) :=
      lt_of_lt_of_le hs0lt hss1
    have hs1prop : min (s - s % step + step) (w - 1) % step = 0 ∨
        min (s - s % step + step) (w - 1) = w - 1 := by
      by_cases hc2 : s - s % step + step ≤ w - 1
      · left
        rw [min_eq_left hc2, Nat.add_mod_right, hs0mod]
      · right
        rw [min_eq_right (by omega)]
    have ht0lt : t - t % step < t := by omega
    have htt1 : t ≤ min (t - t % step + step) (h - 1) :=
      le_min (by omega) (by omega)
    have ht0t1 : t - t % step < min (t - t % step + step) (h - 1) :=
      lt_of_lt_of_le ht0lt htt1
    have ht1prop : min (t - t % step + step) (h - 1) % step = 0 ∨
        min (t - t % step + step) (h - 1) = h - 1 := by
      by_cases hc2 : t - t % step + step ≤ h - 1
      · left
        rw [min_eq_left hc2, Nat.add_mod_right, ht0mod]
      · right
        rw [min_eq_right (by omega)]
    have hqs1 : ((s - s % step : Nat) : ℚ) <
        ((min (s - s % step + step) (w - 1) : Nat) : ℚ) :=
      Nat.cast_lt.mpr hs0s1
    have hqs2 : (s : ℚ) ≤ ((min (s - s % step + step) (w - 1) : Nat) : ℚ) :=
      Nat.cast_le.mpr hss1
    have hqs3 : ((s - s % step : Nat) : ℚ) ≤ (s : ℚ) :=
      Nat.cast_le.mpr (Nat.sub_le s (s % step))
    have hqt1 : ((t - t % step : Nat) : ℚ) <
        ((min (t - t % step + step) (h - 1) : Nat) : ℚ) :=
      Nat.cast_lt.mpr ht0t1
    have hqt2 : (t : ℚ) ≤ ((min (t - t % step + step) (h - 1) : Nat) : ℚ) :=
      Nat.cast_le.mpr htt1
    have hqt3 : ((t - t % step : Nat) : ℚ) ≤ (t : ℚ) :=
      Nat.cast_le.mpr (Nat.sub_le t (t % step))
    refine ⟨s - s % step, min (s - s % step + step) (w - 1),
      t - t % step, min (t - t % step + step) (h - 1),
      ((((min (s - s % step + step) (w - 1) : Nat) : ℚ)) - (s : ℚ)) *
        ((((min (t - t % step + step) (h - 1) : Nat) : ℚ)) - (t : ℚ)),
      ((s : ℚ) - ((s - s % step : Nat) : ℚ)) *
        ((((min (t - t % step + step) (h - 1) : Nat) : ℚ)) - (t : ℚ)),
      ((((min (s - s % step + step) (w - 1) : Nat) : ℚ)) - (s : ℚ)) *
        ((t : ℚ) - ((t - t % step : Nat) : ℚ)),
      ((s : ℚ) - ((s - s % step : Nat) : ℚ)) *
        ((t : ℚ) - ((t - t % step : Nat) : ℚ)),
      hs0mod, hs1prop, ht0mod, ht1prop,
      by omega, hss1, min_le_left _ _, by
        have := min_le_right (s - s % step + step) (w - 1)
        omega,
      by omega, htt1, min_le_left _ _, by
        have := min_le_right (t - t % step + step) (h - 1)
        omega,
      mul_nonneg (by linarith) (by linarith),
      mul_nonneg (by linarith) (by linarith),
      mul_nonneg (by linarith) (by linarith),
      mul_nonneg (by linarith) (by linarith), ?_, ?_⟩
    · have hsum : ((((min (s - s % step + step) (w - 1) : Nat) : ℚ)) - (s : ℚ)) *
            ((((min (t - t % step + step) (h - 1) : Nat) : ℚ)) - (t : ℚ)) +
          ((s : ℚ) - ((s - s % step : Nat) : ℚ)) *
            ((((min (t - t % step + step) (h - 1) : Nat) : ℚ)) - (t : ℚ)) +
          ((((min (s - s % step + step) (w - 1) : Nat) : ℚ)) - (s : ℚ)) *
            ((t : ℚ) - ((t - t % step : Nat) : ℚ)) +
          ((s : ℚ) - ((s - s % step : Nat) : ℚ)) *
            ((t : ℚ) - ((t - t % step : Nat) : ℚ)) =
          ((((min (s - s % step + step) (w - 1) : Nat) : ℚ)) -
             ((s - s % step : Nat) : ℚ)) *
          ((((min (t - t % step + step) (h - 1) : Nat) : ℚ)) -
             ((t - t % step : Nat) : ℚ)) := by
        ring
      rw [hsum]
      exact mul_pos (by linarith) (by linarith)
    · have hne1 : ¬(s - s % step = min (s - s % step + step) (w - 1)) :=
        Nat.ne_of_lt hs0s1
      have hne2 : ¬(t - t % step = min (t - t % step + step) (h - 1)) :=
        Nat.ne_of_lt ht0t1
      have hval : interpolatedNormal ext hgt w h step s t =
          vadd
            (vsmul ((((min (t - t % step + step) (h - 1) : Nat) : ℚ)) -
                (t : ℚ))
              (vadd
                (vsmul ((((min (s - s % step + step) (w - 1) : Nat) : ℚ)) -
                    (s : ℚ))
                  (getNormal ext hgt w h (s - s % step) (t - t % step)))
                (vsmul ((s : ℚ) - ((s - s % step : Nat) : ℚ))
                  (getNormal ext hgt w h
                    (min (s - s % step + step) (w - 1)) (t - t % step)))))
            (vsmul ((t : ℚ) - ((t - t % step : Nat) : ℚ))
              (vadd
                (vsmul ((((min (s - s % step + step) (w - 1) : Nat) : ℚ)) -
                    (s : ℚ))
                  (getNormal ext hgt w h (s - s % step)
                    (min (t - t % step + step) (h - 1))))
                (vsmul ((s : ℚ) - ((s - s % step : Nat) : ℚ))
                  (getNormal ext hgt w h
                    (min (s - s % step + step) (w - 1))
                    (min (t - t % step + step) (h - 1)))))) := by
        have hmx : max (s - s % step) 0 = s - s % step := Nat.max_zero _
        have hmt : max (t - t % step) 0 = t - t % step := Nat.max_zero _
        have hne12 : ¬(s - s % step = min (s - s % step + step) (w - 1) ∧
            t - t % step = min (t - t % step + step) (h - 1)) :=
          fun hab => hne1 hab.1
        simp only [interpolatedNormal, hmx, hmt, if_neg hsm, if_neg htm,
          if_neg hne1, if_neg hne2, if_neg hne12]
      rw [hval]
      refine vec3_eq _ _ ?_ ?_ ?_ <;> simp [vadd, vsmul] <;> ring

/-- C8: in normal synthesis (projected reference system), (1) a pixel whose
recorded LOD delta (read from the linear array at `t*h+s`, as the source
does) is zero gets the direct central-difference normal, (2) which for an
interior pixel is exactly the cross product of the axis-aligned neighbor
differences; (3) a pixel with positive delta gets a normal that is a
nonnegative, not-all-zero-weighted (bi)linear combination of direct normals
queried only at coarse-grid positions that are multiples of `2^delta`
(clamped to the last row/column), at most `2^delta` apart and enclosing the
pixel — and (4) when the pixel itself lies on the coarse grid this
interpolation collapses to the direct query; (5) the raw normal's z
component is strictly positive, hence the stored normal — the source
normalizes each vector before storage — is a unit vector. -/
theorem C8_normal_synthesis (ext : Extent) (hgt : Nat → Nat → ℚ)
    (w h : Nat) (deltaLOD : Nat → Nat) (s t : Nat)
    (hw : 2 ≤ w) (hh : 2 ≤ h) (hs : s < w) (ht : t < h)
    (hx : ext.xmin < ext.xmax) (hy : ext.ymin < ext.ymax) :
    (deltaLOD (t * h + s) = 0 →
      createNormalMapRaw ext hgt w h deltaLOD s t =
        getNormal ext hgt w h s t) ∧
    (0 < s → s < w - 1 → 0 < t → t < h - 1 →
      getNormal ext hgt w h s t =
        (-((hgt (s + 1) t - hgt (s - 1) t) *
            (2 * ((ext.ymax - ext.ymin) / ((h : ℚ) - 1)))),
         -((2 * ((ext.xmax - ext.xmin) / ((w : ℚ) - 1))) *
            (hgt s (t + 1) - hgt s (t - 1))),
         (2 * ((ext.xmax - ext.xmin) / ((w : ℚ) - 1))) *
           (2 * ((ext.ymax - ext.ymin) / ((h : ℚ) - 1))))) ∧
    (0 < deltaLOD (t * h + s) →
      ∃ s0 s1 t0 t1 : Nat, ∃ wa wb wc wd : ℚ,
        s0 % 2 ^ deltaLOD (t * h + s) = 0 ∧
        (s1 % 2 ^ deltaLOD (t * h + s) = 0 ∨ s1 = w - 1) ∧
        t0 % 2 ^ deltaLOD (t * h + s) = 0 ∧
        (t1 % 2 ^ deltaLOD (t * h + s) = 0 ∨ t1 = h - 1) ∧
        s0 ≤ s ∧ s ≤ s1 ∧ s1 ≤ s0 + 2 ^ deltaLOD (t * h + s) ∧ s1 < w ∧
        t0 ≤ t ∧ t ≤ t1 ∧ t1 ≤ t0 + 2 ^ deltaLOD (t * h + s) ∧ t1 < h ∧
        0 ≤ wa ∧ 0 ≤ wb ∧ 0 ≤ wc ∧ 0 ≤ wd ∧ 0 < wa + wb + wc + wd ∧
        createNormalMapRaw ext hgt w h deltaLOD s t =
          vadd (vadd (vsmul wa (getNormal ext hgt w h s0 t0))
                     (vsmul wb (getNormal ext hgt w h s1 t0)))
               (vadd (vsmul wc (getNormal ext hgt w h s0 t1))
                     (vsmul wd (getNormal ext hgt w h s1 t1)))) ∧
    (0 < deltaLOD (t * h + s) → s % 2 ^ deltaLOD (t * h + s) = 0 →
      t % 2 ^ deltaLOD (t * h + s) = 0 →
      createNormalMapRaw ext hgt w h deltaLOD s t =
        getNormal ext hgt w h s t) ∧
    (0 < (createNormalMapRaw ext hgt w h deltaLOD s t).2.2 ∧
     Real.sqrt
       ((((createNormalMapRaw ext hgt w h deltaLOD s t).1 : ℝ) /
           Real.sqrt
             (((createNormalMapRaw ext hgt w h deltaLOD s t).1 : ℝ) ^ 2 +
              ((createNormalMapRaw ext hgt w h deltaLOD s t).2.1 : ℝ) ^ 2 +
              ((createNormalMapRaw ext hgt w h deltaLOD s t).2.2 : ℝ) ^ 2)) ^ 2 +
        (((createNormalMapRaw ext hgt w h deltaLOD s t).2.1 : ℝ) /
           Real.sqrt
             (((createNormalMapRaw ext hgt w h deltaLOD s t).1 : ℝ) ^ 2 +
              ((createNormalMapRaw ext hgt w h deltaLOD s t).2.1 : ℝ) ^ 2 +
              ((createNormalMapRaw ext hgt w h deltaLOD s t).2.2 : ℝ) ^ 2)) ^ 2 +
        (((createNormalMapRaw ext hgt w h deltaLOD s t).2.2 : ℝ) /
           Real.sqrt
             (((createNormalMapRaw ext hgt w h deltaLOD s t).1 : ℝ) ^ 2 +
              ((createNormalMapRaw ext hgt w h deltaLOD s t).2.1 : ℝ) ^ 2 +
              ((createNormalMapRaw ext hgt w h deltaLOD s t).2.2 : ℝ) ^ 2)) ^ 2)
       = 1) := by
  have hA : deltaLOD (t * h + s) = 0 →
      createNormalMapRaw ext hgt w h deltaLOD s t =
        getNormal ext hgt w h s t := by
    intro h0
    simp [createNormalMapRaw, h0]
  have hstep2 : 0 < deltaLOD (t * h + s) →
      2 ≤ 2 ^ deltaLOD (t * h + s) := by
    intro hd
    calc (2 : Nat) = 2 ^ 1 := (pow_one 2).symm
    _ ≤ 2 ^ deltaLOD (t * h + s) := Nat.pow_le_pow_right (by omega) (by omega)
  have hComb : 0 < deltaLOD (t * h + s) →
      ∃ s0 s1 t0 t1 : Nat, ∃ wa wb wc wd : ℚ,
        s0 % 2 ^ deltaLOD (t * h + s) = 0 ∧
        (s1 % 2 ^ deltaLOD (t * h + s) = 0 ∨ s1 = w - 1) ∧
        t0 % 2 ^ deltaLOD (t * h + s) = 0 ∧
        (t1 % 2 ^ deltaLOD (t * h + s) = 0 ∨ t1 = h - 1) ∧
        s0 ≤ s ∧ s ≤ s1 ∧ s1 ≤ s0 + 2 ^ deltaLOD (t * h + s) ∧ s1 < w ∧
        t0 ≤ t ∧ t ≤ t1 ∧ t1 ≤ t0 + 2 ^ deltaLOD (t * h + s) ∧ t1 < h ∧
        0 ≤ wa ∧ 0 ≤ wb ∧ 0 ≤ wc ∧ 0 ≤ wd ∧ 0 < wa + wb + wc + wd ∧
        createNormalMapRaw ext hgt w h deltaLOD s t =
          vadd (vadd (vsmul wa (getNormal ext hgt w h s0 t0))
                     (vsmul wb (getNormal ext hgt w h s1 t0)))
               (vadd (vsmul wc (getNormal ext hgt w h s0 t1))
                     (vsmul wd (getNormal ext hgt w h s1 t1))) := by
    intro hd
    have h2 := hstep2 hd
    have hne1 : ¬(2 ^ deltaLOD (t * h + s) = 1) := by omega
    have hcn : createNormalMapRaw ext hgt w h deltaLOD s t =
        interpolatedNormal ext hgt w h (2 ^ deltaLOD (t * h + s)) s t := by
      simp [createNormalMapRaw, hne1]
    rw [hcn]
    exact interpolatedNormal_comb ext hgt w h _ s t h2 hw hh hs ht
  have hC : 0 < deltaLOD (t * h + s) → s % 2 ^ deltaLOD (t * h + s) = 0 →
      t % 2 ^ deltaLOD (t * h + s) = 0 →
      createNormalMapRaw ext hgt w h deltaLOD s t =
        getNormal ext hgt w h s t := by
    intro hd hsm htm
    have h2 := hstep2 hd
    have hne1 : ¬(2 ^ deltaLOD (t * h + s) = 1) := by omega
    simp [createNormalMapRaw, hne1, interpolatedNormal, hsm, htm]
  have hz : 0 < (createNormalMapRaw ext hgt w h deltaLOD s t).2.2 := by
    rcases Nat.eq_zero_or_pos (deltaLOD (t * h + s)) with h0 | hd
    · rw [hA h0]
      exact getNormal_z_pos ext hgt w h s t hw hh hs ht hx hy
    · obtain ⟨s0, s1, t0, t1, wa, wb, wc, wd, _, _, _, _,
        hs0s, _, _, hs1w, ht0t, _, _, ht1h, hwa, hwb, hwc, hwd, hsum, hcomb⟩ :=
        hComb hd
      rw [hcomb]
      have hz00 := getNormal_z_pos ext hgt w h s0 t0 hw hh (by omega)
        (by omega) hx hy
      have hz10 := getNormal_z_pos ext hgt w h s1 t0 hw hh hs1w (by omega)
        hx hy
      have hz01 := getNormal_z_pos ext hgt w h s0 t1 hw hh (by omega) ht1h
        hx hy
      have hz11 := getNormal_z_pos ext hgt w h s1 t1 hw hh hs1w ht1h hx hy
      have hzz : (vadd (vadd (vsmul wa (getNormal ext hgt w h s0 t0))
            (vsmul wb (getNormal ext hgt w h s1 t0)))
          (vadd (vsmul wc (getNormal ext hgt w h s0 t1))
            (vsmul wd (getNormal ext hgt w h s1 t1)))).2.2 =
          wa * (getNormal ext hgt w h s0 t0).2.2 +
          wb * (getNormal ext hgt w h s1 t0).2.2 +
          wc * (getNormal ext hgt w h s0 t1).2.2 +
          wd * (getNormal ext hgt w h s1 t1).2.2 := by
        simp [vadd, vsmul]
        ring
      rw [hzz]
      exact conic4_pos _ _ _ _ _ _ _ _ hwa hwb hwc hwd hsum hz00 hz10 hz01 hz11
  have hA2 : 0 < s → s < w - 1 → 0 < t → t < h - 1 →
      getNormal ext hgt w h s t =
        (-((hgt (s + 1) t - hgt (s - 1) t) *
            (2 * ((ext.ymax - ext.ymin) / ((h : ℚ) - 1)))),
         -((2 * ((ext.xmax - ext.xmin) / ((w : ℚ) - 1))) *
            (hgt s (t + 1) - hgt s (t - 1))),
         (2 * ((ext.xmax - ext.xmin) / ((w : ℚ) - 1))) *
           (2 * ((ext.ymax - ext.ymin) / ((h : ℚ) - 1)))) := by
    intro h1 h2 h3 h4
    simp only [getNormal, if_pos h1, if_pos h2, if_pos h3, if_pos h4]
    refine vec3_eq _ _ ?_ ?_ ?_ <;> simp only [vcross, vsub] <;> ring
  refine ⟨hA, hA2, hComb, hC, hz, ?_⟩
  exact normalize_unit _ _ _ (by exact_mod_cast hz)

/-- C8 witness: a concrete 4×4 grid with LOD delta 1 everywhere; the pixel
(2,2) lies on the coarse grid and receives the direct query. -/
theorem C8_normal_synthesis_witness :
    createNormalMapRaw ⟨0, 0, 1, 1⟩ (fun _ _ => 0) 4 4 (fun _ => 1) 2 2 =
      getNormal ⟨0, 0, 1, 1⟩ (fun _ _ => 0) 4 4 2 2 :=
  (C8_normal_synthesis ⟨0, 0, 1, 1⟩ (fun _ _ => 0) 4 4 (fun _ => 1) 2 2
    (by decide) (by decide) (by decide) (by decide)
    zero_lt_one zero_lt_one).2.2.2.1 (by decide) rfl rfl

end OE
